import Mathlib

/-!
Verification development for the rubrs tree-walking interpreter.

The Rust sources are embedded shallowly:
  - types.rs: token model, AST, runtime values, and the evaluator
    (Stmt::evaluate / Expr::evaluate / Value::to_boolean / to_number).
  - environment.rs: the lexically nested variable environment
    (define / get / assign over a chain of enclosing scopes).
  - main.rs: the Scanner (lexer).
  - parser.rs: the recursive-descent Parser.

Modelling conventions, used throughout:
  - Rust f64 is idealized as the type F64 below (NaN, signed infinities,
    exact rationals for finite values).
  - Rc of RefCell of Environment is modelled as an index into an explicit
    heap (a list of environment records); Environment::new_enclosed appends
    a record whose enclosing index is the existing environment, so every
    enclosing index is smaller than the index of the record holding it and
    every chain walk terminates within (heap length + 1) steps.
  - Result of T with String errors becomes Res T with constructors ok and
    err; a Rust panic (unwrap, panic macro calls, out-of-bounds indexing)
    becomes the separate constructor Res.panic.  Possibly unbounded
    recursion (while loops, user-function calls, parser descent) takes a
    fuel argument and returns Res.timeout when the fuel is exhausted;
    timeout is an artifact of the embedding, not a behavior of the code.
    The err and panic constructors carry only the message, as the claims
    under study do not depend on the state at the moment of failure.
  - Panic messages keep the formatted argument where a claim could touch
    it, but do not reproduce the Debug rendering of whole structs.
-/

namespace Rubrs

/-- Exact fraction with integer numerator and positive natural denominator,
not kept normalized: every comparison below cross-multiplies, so two
representations of the same rational behave identically. -/
structure Frac where
  num : Int
  den : Nat
deriving DecidableEq, Repr

instance fracOfNat (n : Nat) : OfNat Frac n := ⟨⟨n, 1⟩⟩

/-- Value equality of fractions by cross-multiplication. -/
def Frac.eqv (a b : Frac) : Bool := a.num * (b.den : Int) == b.num * (a.den : Int)

/-- Value order of fractions by cross-multiplication (denominators are
positive). -/
def Frac.ltv (a b : Frac) : Bool :=
  decide (a.num * (b.den : Int) < b.num * (a.den : Int))

/-- Non-strict value order of fractions. -/
def Frac.lev (a b : Frac) : Bool :=
  decide (a.num * (b.den : Int) ≤ b.num * (a.den : Int))

/-- Idealized IEEE-754 double: NaN, signed infinities (inf true is positive
infinity), and finite values represented exactly as fractions.  Signed zero
is collapsed to 0 and finite overflow to infinity is not modelled; on this
idealization the comparisons and arithmetic below follow IEEE semantics. -/
inductive F64 where
  | nan : F64
  | inf : Bool → F64
  | fin : Frac → F64
deriving DecidableEq, Repr

/-- IEEE equality on doubles: NaN compares unequal to everything, including
itself; infinities compare by sign; finite values compare as rationals. -/
def F64.ieeeEq : F64 → F64 → Bool
  | .nan, _ => false
  | _, .nan => false
  | .inf a, .inf b => a == b
  | .fin a, .fin b => Frac.eqv a b
  | _, _ => false

/-- IEEE strict less-than; any comparison with NaN is false. -/
def F64.lt : F64 → F64 → Bool
  | .nan, _ => false
  | _, .nan => false
  | .inf a, .inf b => !a && b
  | .inf a, .fin _ => !a
  | .fin _, .inf b => b
  | .fin a, .fin b => Frac.ltv a b

/-- IEEE less-or-equal; any comparison with NaN is false. -/
def F64.le : F64 → F64 → Bool
  | .nan, _ => false
  | _, .nan => false
  | .inf a, .inf b => !a || b
  | .inf a, .fin _ => !a
  | .fin _, .inf b => b
  | .fin a, .fin b => Frac.lev a b

/-- IEEE addition on the idealization. -/
def F64.add : F64 → F64 → F64
  | .nan, _ => .nan
  | _, .nan => .nan
  | .inf a, .inf b => if a == b then .inf a else .nan
  | .inf a, .fin _ => .inf a
  | .fin _, .inf b => .inf b
  | .fin a, .fin b =>
    .fin ⟨a.num * (b.den : Int) + b.num * (a.den : Int), a.den * b.den⟩

/-- IEEE negation. -/
def F64.neg : F64 → F64
  | .nan => .nan
  | .inf a => .inf (!a)
  | .fin a => .fin ⟨-a.num, a.den⟩

/-- IEEE subtraction. -/
def F64.sub (a b : F64) : F64 := F64.add a (F64.neg b)

/-- IEEE multiplication on the idealization. -/
def F64.mul : F64 → F64 → F64
  | .nan, _ => .nan
  | _, .nan => .nan
  | .inf a, .inf b => .inf (a == b)
  | .inf a, .fin q => if q.num = 0 then .nan else .inf (a == decide (0 < q.num))
  | .fin q, .inf b => if q.num = 0 then .nan else .inf (b == decide (0 < q.num))
  | .fin a, .fin b => .fin ⟨a.num * b.num, a.den * b.den⟩

/-- IEEE division on the idealization: division by zero yields a signed
infinity (or NaN for zero over zero), never an error. -/
def F64.div : F64 → F64 → F64
  | .nan, _ => .nan
  | _, .nan => .nan
  | .inf _, .inf _ => .nan
  | .inf a, .fin q => .inf (a == decide (0 ≤ q.num))
  | .fin _, .inf _ => .fin 0
  | .fin a, .fin b =>
    if b.num = 0 then (if a.num = 0 then .nan else .inf (decide (0 < a.num)))
    else
      .fin ⟨(if b.num < 0 then -a.num else a.num) * (b.den : Int),
        a.den * b.num.natAbs⟩

/-- Leading decimal digits of a character list, and the rest. -/
def takeDigits : List Char → List Char × List Char
  | [] => ([], [])
  | c :: rest =>
    if c.isDigit then
      let (ds, r) := takeDigits rest
      (c :: ds, r)
    else ([], c :: rest)

/-- Numeric value of a digit list, most significant first. -/
def digitsToNat : List Char → Nat
  | [] => 0
  | c :: rest => (c.toNat - 48) * 10 ^ rest.length + digitsToNat rest

/-- Mantissa value of integer digits and fraction digits as a fraction over
a power of ten. -/
def mantissa (ip fp : List Char) : Frac :=
  ⟨(digitsToNat ip * 10 ^ fp.length + digitsToNat fp : Nat), 10 ^ fp.length⟩

/-- Optional exponent part of a float literal, applied to mantissa m: a
positive exponent scales the numerator, a negative one the denominator. -/
def parseExpPart (m : Frac) : List Char → Option Frac
  | [] => some m
  | c :: r =>
    if c = 'e' ∨ c = 'E' then
      let (eneg, r1) : Bool × List Char :=
        match r with
        | '+' :: t => (false, t)
        | '-' :: t => (true, t)
        | _ => (false, r)
      let (ds, r2) := takeDigits r1
      if ds.isEmpty ∨ !r2.isEmpty then none
      else if eneg then some ⟨m.num, m.den * 10 ^ digitsToNat ds⟩
      else some ⟨m.num * (10 : Int) ^ digitsToNat ds, m.den⟩
    else none

/-- Unsigned number part of a float literal: digits, an optional point with
optional fraction digits (or a leading point with digits), and an optional
exponent. -/
def parseF64core (cs : List Char) : Option Frac :=
  let (ip, r1) := takeDigits cs
  match r1 with
  | '.' :: r2 =>
    let (fp, r3) := takeDigits r2
    if ip.isEmpty ∧ fp.isEmpty then none
    else parseExpPart (mantissa ip fp) r3
  | _ =>
    if ip.isEmpty then none else parseExpPart (mantissa ip []) r1

/-- Model of Rust's str::parse::<f64>: an optional sign, then the words inf,
infinity or nan (case-insensitive) or a decimal number with optional
fraction and exponent.  Returns none where Rust returns a parse error. -/
def parseF64 (s : String) : Option F64 :=
  let (neg, cs1) : Bool × List Char :=
    match s.data with
    | '+' :: t => (false, t)
    | '-' :: t => (true, t)
    | _ => (false, s.data)
  let lower := String.mk (cs1.map Char.toLower)
  if lower = "inf" ∨ lower = "infinity" then some (.inf (!neg))
  else if lower = "nan" then some .nan
  else
    match parseF64core cs1 with
    | some q => some (.fin (if neg then ⟨-q.num, q.den⟩ else q))
    | none => none

/-- Decimal expansion digits of r over d where r is less than d; terminates
when the remainder reaches zero (always, for values coming from doubles). -/
def fracDigits : Nat → Nat → Nat → String
  | 0, _, _ => ""
  | _ + 1, 0, _ => ""
  | f + 1, r, d =>
    let r10 := r * 10
    String.singleton (Char.ofNat (48 + r10 / d)) ++ fracDigits f (r10 % d) d

/-- Display of a double per Rust's Display for f64: NaN, inf, -inf, and
finite values in decimal with no trailing .0 on integers. -/
def fmtF64 : F64 → String
  | .nan => "NaN"
  | .inf true => "inf"
  | .inf false => "-inf"
  | .fin q =>
    let sgn := if q.num < 0 then "-" else ""
    let n := q.num.natAbs
    let d := q.den
    if n % d = 0 then sgn ++ toString (n / d)
    else sgn ++ toString (n / d) ++ "." ++ fracDigits 1200 (n % d) d

/-- Token kinds of types.rs (TokenType), payload-carrying where the source
carries one. -/
inductive TokenType where
  | LeftParen | RightParen | LeftBrace | RightBrace | Comma | Dot
  | Minus | Plus | Semicolon | Slash | Star
  | Bang | BangEqual | Equal | EqualEqual
  | Greater | GreaterEqual | Less | LessEqual
  | Identifier : String → TokenType
  | String : String → TokenType
  | Number : F64 → TokenType
  | And | Class | Else | False | Fun | For | If | Nil | Or | Print
  | Return | Super | This | True | Var | While
  | Eof
deriving DecidableEq, Repr

/-- Discriminant tag of a TokenType, for the payload-insensitive comparison
mem::discriminant performs in Parser::check. -/
def TokenType.tag : TokenType → Nat
  | .LeftParen => 0 | .RightParen => 1 | .LeftBrace => 2 | .RightBrace => 3
  | .Comma => 4 | .Dot => 5 | .Minus => 6 | .Plus => 7 | .Semicolon => 8
  | .Slash => 9 | .Star => 10
  | .Bang => 11 | .BangEqual => 12 | .Equal => 13 | .EqualEqual => 14
  | .Greater => 15 | .GreaterEqual => 16 | .Less => 17 | .LessEqual => 18
  | .Identifier _ => 19 | .String _ => 20 | .Number _ => 21
  | .And => 22 | .Class => 23 | .Else => 24 | .False => 25 | .Fun => 26
  | .For => 27 | .If => 28 | .Nil => 29 | .Or => 30 | .Print => 31
  | .Return => 32 | .Super => 33 | .This => 34 | .True => 35 | .Var => 36
  | .While => 37
  | .Eof => 38

/-- Same-variant test on token kinds (mem::discriminant comparison). -/
def sameKind (a b : TokenType) : Bool := a.tag == b.tag

/-- Whether a token kind is the Eof sentinel. -/
def TokenType.isEof : TokenType → Bool
  | .Eof => true
  | _ => false

/-- Token of types.rs: kind, exact source slice, 1-based line. -/
structure Token where
  token_type : TokenType
  lexeme : String
  line : Nat
deriving DecidableEq, Repr

/-- Native function tags of types.rs. -/
inductive NativeFunction where
  | Clock
deriving DecidableEq, Repr

/-- Arity of a native function (Callable::arity for NativeFunction). -/
def NativeFunction.arity : NativeFunction → Nat
  | .Clock => 0

mutual

/-- Expressions of types.rs.  Binary, Logical and Unary carry the operator
token; Call carries the closing-paren token. -/
inductive Expr where
  | Assign : Token → Expr → Expr
  | Binary : Expr → Token → Expr → Expr
  | Call : Expr → Token → List Expr → Expr
  | Grouping : Expr → Expr
  | Literal : Value → Expr
  | Logical : Expr → Token → Expr → Expr
  | Unary : Token → Expr → Expr
  | Variable : Token → Expr

/-- Statements of types.rs. -/
inductive Stmt where
  | Block : List Stmt → Stmt
  | Expression : Expr → Stmt
  | Function : Token → List Token → List Stmt → Stmt
  | If : Expr → Stmt → Option Stmt → Stmt
  | Print : Expr → Stmt
  | Return : Token → Option Expr → Stmt
  | Var : Token → Option Expr → Stmt
  | While : Expr → Stmt → Stmt

/-- Runtime values of types.rs.  A Function value carries its name token,
parameter tokens, body, and the heap index of its closure environment. -/
inductive Value where
  | Boolean : Bool → Value
  | Nil : Value
  | Number : F64 → Value
  | String : String → Value
  | Function : Token → List Token → List Stmt → Nat → Value
  | NativeFunction : NativeFunction → Value

end

/-- Outcome of running embedded code: ok mirrors Rust Ok, err mirrors Err
with a message string, panic mirrors a Rust panic (including unwrap on an
Err), and timeout reports exhausted fuel, an artifact of the embedding. -/
inductive Res (α : Type) where
  | ok : α → Res α
  | err : String → Res α
  | panic : String → Res α
  | timeout : Res α

/-- Sequencing that mirrors the Rust question-mark operator: err, panic and
timeout pass through unchanged. -/
def Res.bind : Res α → (α → Res β) → Res β
  | .ok a, k => k a
  | .err e, _ => .err e
  | .panic e, _ => .panic e
  | .timeout, _ => .timeout

/-- Environment record of environment.rs: an optional enclosing scope
(modelled as a heap index) and the name-to-value map (modelled as an
association list with insert-replaces semantics). -/
structure Environment where
  enclosing : Option Nat
  values : List (String × Value)

/-- Heap cell at index i, none when i is out of range. -/
def heapGet : List Environment → Nat → Option Environment
  | [], _ => none
  | d :: _, 0 => some d
  | _ :: rest, n + 1 => heapGet rest n

/-- Heap with the cell at index i replaced; unchanged when out of range. -/
def heapSet : List Environment → Nat → Environment → List Environment
  | [], _, _ => []
  | _ :: rest, 0, d => d :: rest
  | e :: rest, n + 1, d => e :: heapSet rest n d

/-- First value bound to name in an association list (HashMap::get). -/
def lookupVal : List (String × Value) → String → Option Value
  | [], _ => none
  | (k, v) :: rest, name => if k = name then some v else lookupVal rest name

/-- Association-list insert with replacement (HashMap::insert). -/
def insertVal : List (String × Value) → String → Value → List (String × Value)
  | [], name, v => [(name, v)]
  | (k, w) :: rest, name, v =>
    if k = name then (name, v) :: rest else (k, w) :: insertVal rest name v

/-- Environment::define: write into the scope at index i, creating or
overwriting the binding there.  An out-of-range index leaves the heap
unchanged; the evaluator only passes live indices. -/
def Environment.define (h : List Environment) (i : Nat) (name : String)
    (v : Value) : List Environment :=
  match heapGet h i with
  | some d => heapSet h i { d with values := insertVal d.values name v }
  | none => h

/-- Environment::get: look in the scope at index i, then walk the enclosing
chain outward; error when no scope binds the name.  The fuel bounds the
chain walk; heap length + 1 always suffices because enclosing indices
strictly decrease. -/
def Environment.get : Nat → List Environment → Nat → Token → Res Value
  | 0, _, _, _ => .timeout
  | f + 1, h, i, name =>
    match heapGet h i with
    | none => .panic ("invalid environment index")
    | some d =>
      match lookupVal d.values name.lexeme with
      | some v => .ok v
      | none =>
        match d.enclosing with
        | some j => Environment.get f h j name
        | none => .err ("Undefined variable '" ++ name.lexeme ++ "'.")

/-- Environment::assign: write into the innermost scope of the enclosing
chain that already contains the name; error when no scope does. -/
def Environment.assign : Nat → List Environment → Nat → Token → Value →
    Res (List Environment)
  | 0, _, _, _, _ => .timeout
  | f + 1, h, i, name, v =>
    match heapGet h i with
    | none => .panic ("invalid environment index")
    | some d =>
      if (lookupVal d.values name.lexeme).isSome then
        .ok (heapSet h i { d with values := insertVal d.values name.lexeme v })
      else
        match d.enclosing with
        | some j => Environment.assign f h j name v
        | none => .err ("Undefined variable '" ++ name.lexeme ++ "'.")

/-- Display text of a native function per the Debug render of its tag. -/
def NativeFunction.debugName : NativeFunction → String
  | .Clock => "Clock"

/-- Value::to_boolean of types.rs: false and nil are false, a number is its
inequality with zero, a string is its non-emptiness, functions are true. -/
def Value.to_boolean : Value → Bool
  | .Boolean b => b
  | .Nil => false
  | .Number n => !F64.ieeeEq n (.fin 0)
  | .String s => !s.isEmpty
  | .Function _ _ _ _ => true
  | .NativeFunction _ => true

/-- Value::to_number of types.rs: booleans become 0 or 1, nil becomes 0,
strings are parsed as doubles with unwrap (panic on failure), functions are
errors. -/
def Value.to_number : Value → Res F64
  | .Boolean b => .ok (.fin (if b then 1 else 0))
  | .Nil => .ok (.fin 0)
  | .Number n => .ok n
  | .String s =>
    match parseF64 s with
    | some x => .ok x
    | none => .panic ("invalid float literal")
  | .Function _ _ _ _ => .err ("Cannot convert function to number.")
  | .NativeFunction _ => .err ("Cannot convert native function to number.")

/-- Derived PartialEq on Value: same-variant fields compare (doubles by IEEE
equality), different variants are unequal, and a Function compares by its
name lexeme alone (the manual PartialEq impl for Function). -/
def valueEq : Value → Value → Bool
  | .Boolean a, .Boolean b => a == b
  | .Nil, .Nil => true
  | .Number a, .Number b => F64.ieeeEq a b
  | .String a, .String b => a == b
  | .Function n1 _ _ _, .Function n2 _ _ _ => n1.lexeme == n2.lexeme
  | .NativeFunction a, .NativeFunction b => a == b
  | _, _ => false

/-- Display for Value (fmt::Display in types.rs): nil prints nil, booleans
print true or false, numbers per Display for f64, strings raw, functions as
fn name in angle brackets. -/
def fmtValue : Value → String
  | .Boolean b => if b then "true" else "false"
  | .Nil => "nil"
  | .Number n => fmtF64 n
  | .String s => s
  | .Function name _ _ _ => "<fn " ++ name.lexeme ++ ">"
  | .NativeFunction nf => "<native fn " ++ nf.debugName ++ ">"

/-- Evaluator state: the environment heap, the lines printed so far, and the
wall-clock reading the clock native would return. -/
structure EvalSt where
  heap : List Environment
  output : List String
  now : F64

/-- Binding of parameter tokens to argument values in the scope at index i
(the zip-and-define loop of the Call arm). -/
def defineParams (h : List Environment) (i : Nat) :
    List (Token × Value) → List Environment
  | [] => h
  | (p, a) :: rest => defineParams (Environment.define h i p.lexeme a) i rest

/-- Operator dispatch of the Binary arm in Expr::evaluate: both operands are
already evaluated; arithmetic and comparisons convert each side with
to_number (left first), BangEqual uses the derived PartialEq, and every
other operator, EqualEqual included, hits the catch-all panic. -/
def evalBinaryOp (operator : Token) (lv rv : Value) (st : EvalSt) :
    Res (Value × EvalSt) :=
  match operator.token_type with
  | .Minus =>
    Res.bind lv.to_number fun a => Res.bind rv.to_number fun b =>
      .ok (.Number (F64.sub a b), st)
  | .Plus =>
    Res.bind lv.to_number fun a => Res.bind rv.to_number fun b =>
      .ok (.Number (F64.add a b), st)
  | .Slash =>
    Res.bind lv.to_number fun a => Res.bind rv.to_number fun b =>
      .ok (.Number (F64.div a b), st)
  | .Star =>
    Res.bind lv.to_number fun a => Res.bind rv.to_number fun b =>
      .ok (.Number (F64.mul a b), st)
  | .Greater =>
    Res.bind lv.to_number fun a => Res.bind rv.to_number fun b =>
      .ok (.Boolean (F64.lt b a), st)
  | .GreaterEqual =>
    Res.bind lv.to_number fun a => Res.bind rv.to_number fun b =>
      .ok (.Boolean (F64.le b a), st)
  | .Less =>
    Res.bind lv.to_number fun a => Res.bind rv.to_number fun b =>
      .ok (.Boolean (F64.lt a b), st)
  | .LessEqual =>
    Res.bind lv.to_number fun a => Res.bind rv.to_number fun b =>
      .ok (.Boolean (F64.le a b), st)
  | .BangEqual => .ok (.Boolean (!valueEq lv rv), st)
  | _ => .panic ("Unexpected operator " ++ operator.lexeme)

mutual

/-- Expr::evaluate of types.rs over the heap model.  env is the index of
the current environment; fuel decreases on every nested evaluation. -/
def evalExpr : Nat → Expr → Nat → EvalSt → Res (Value × EvalSt)
  | 0, _, _, _ => .timeout
  | fuel + 1, e, env, st =>
    match e with
    | .Assign name value =>
      Res.bind (evalExpr fuel value env st) fun (v, st1) =>
      Res.bind (Environment.assign (st1.heap.length + 1) st1.heap env name v)
        fun h2 => .ok (v, { st1 with heap := h2 })
    | .Binary left operator right =>
      Res.bind (evalExpr fuel left env st) fun (lv, st1) =>
      Res.bind (evalExpr fuel right env st1) fun (rv, st2) =>
      evalBinaryOp operator lv rv st2
    | .Call callee _ arguments =>
      Res.bind (evalExpr fuel callee env st) fun (calee, st1) =>
      Res.bind (evalArgs fuel arguments env st1) fun (evaluatedArgs, st2) =>
      match calee with
      | .Function _ parameters body closure =>
        if parameters.length ≠ evaluatedArgs.length then
          .err ("Expected " ++ toString parameters.length ++
            " arguments but got " ++ toString evaluatedArgs.length ++ ".")
        else
          let newId := st2.heap.length
          let h1 := st2.heap ++ [⟨some closure, []⟩]
          let h2 := defineParams h1 newId (parameters.zip evaluatedArgs)
          execBody fuel body newId { st2 with heap := h2 }
      | .NativeFunction nf =>
        if nf.arity ≠ evaluatedArgs.length then
          .err ("Expected " ++ toString nf.arity ++ " arguments but got " ++
            toString evaluatedArgs.length ++ ".")
        else
          match nf with
          | .Clock => .ok (.Number st2.now, st2)
      | _ => .err ("Can only call functions and classes.")
    | .Grouping inner => evalExpr fuel inner env st
    | .Literal v => .ok (v, st)
    | .Logical left operator right =>
      Res.bind (evalExpr fuel left env st) fun (lv, st1) =>
      match operator.token_type with
      | .And =>
        if !lv.to_boolean then .ok (lv, st1) else evalExpr fuel right env st1
      | .Or =>
        if lv.to_boolean then .ok (lv, st1) else evalExpr fuel right env st1
      | _ => .panic ("Unexpected operator " ++ operator.lexeme)
    | .Unary operator right =>
      Res.bind (evalExpr fuel right env st) fun (rv, st1) =>
      match operator.token_type with
      | .Minus =>
        Res.bind rv.to_number fun a => .ok (.Number (F64.neg a), st1)
      | .Bang => .ok (.Boolean (!rv.to_boolean), st1)
      | _ => .panic ("Unexpected operator " ++ operator.lexeme)
    | .Variable name =>
      Res.bind (Environment.get (st.heap.length + 1) st.heap env name)
        fun v => .ok (v, st)
termination_by structural fuel => fuel

/-- Stmt::evaluate of types.rs over the heap model.  A Return statement
computes its value (nil when absent) and raises Err carrying the Display
text of that value: the return signal travels on the error channel. -/
def evalStmt : Nat → Stmt → Nat → EvalSt → Res EvalSt
  | 0, _, _, _ => .timeout
  | fuel + 1, s, env, st =>
    match s with
    | .Expression e => Res.bind (evalExpr fuel e env st) fun (_, st1) => .ok st1
    | .If condition thenBranch elseBranch =>
      Res.bind (evalExpr fuel condition env st) fun (c, st1) =>
      if c.to_boolean then evalStmt fuel thenBranch env st1
      else
        match elseBranch with
        | some eb => evalStmt fuel eb env st1
        | none => .ok st1
    | .Function name parameters body =>
      .ok { st with heap := (Environment.define st.heap env name.lexeme
        (.Function name parameters body env)) }
    | .Print e =>
      Res.bind (evalExpr fuel e env st) fun (v, st1) =>
      .ok { st1 with output := st1.output ++ [fmtValue v] }
    | .Return _ value =>
      match value with
      | some ve =>
        Res.bind (evalExpr fuel ve env st) fun (v, _) => .err (fmtValue v)
      | none => .err (fmtValue Value.Nil)
    | .Block statements =>
      let newId := st.heap.length
      execStmts fuel statements newId { st with heap := st.heap ++ [⟨some env, []⟩] }
    | .Var name initializer =>
      match initializer with
      | some ie =>
        Res.bind (evalExpr fuel ie env st) fun (v, st1) =>
        .ok { st1 with heap := Environment.define st1.heap env name.lexeme v }
      | none =>
        .ok { st with heap := Environment.define st.heap env name.lexeme Value.Nil }
    | .While condition body =>
      Res.bind (evalExpr fuel condition env st) fun (c, st1) =>
      if c.to_boolean then
        Res.bind (evalStmt fuel body env st1) fun st2 =>
        evalStmt fuel (.While condition body) env st2
      else .ok st1
termination_by structural fuel => fuel

/-- Statement sequence of a Block: errors propagate (the question mark in
the Block arm's loop). -/
def execStmts : Nat → List Stmt → Nat → EvalSt → Res EvalSt
  | 0, _, _, _ => .timeout
  | _ + 1, [], _, st => .ok st
  | fuel + 1, s :: rest, env, st =>
    Res.bind (evalStmt fuel s env st) fun st1 => execStmts fuel rest env st1
termination_by structural fuel => fuel

/-- Body loop of the Call arm in Expr::evaluate: a statement that is
syntactically a Return at the top level of the body returns its value (nil
when absent), unwrapping the evaluation of the returned expression (panic
on Err); every other statement is evaluated with unwrap, so a runtime error
inside it, a nested return included, panics instead of propagating. -/
def execBody : Nat → List Stmt → Nat → EvalSt → Res (Value × EvalSt)
  | 0, _, _, _ => .timeout
  | _ + 1, [], _, st => .ok (Value.Nil, st)
  | fuel + 1, statement :: rest, env, st =>
    match statement with
    | .Return _ value =>
      match value with
      | some ve =>
        match evalExpr fuel ve env st with
        | .ok (v, st1) => .ok (v, st1)
        | .err e => .panic e
        | .panic e => .panic e
        | .timeout => .timeout
      | none => .ok (Value.Nil, st)
    | _ =>
      match evalStmt fuel statement env st with
      | .ok st1 => execBody fuel rest env st1
      | .err e => .panic e
      | .panic e => .panic e
      | .timeout => .timeout
termination_by structural fuel => fuel

/-- Left-to-right evaluation of call arguments (the argument loop of the
Call arm); errors propagate. -/
def evalArgs : Nat → List Expr → Nat → EvalSt → Res (List Value × EvalSt)
  | 0, _, _, _ => .timeout
  | _ + 1, [], _, st => .ok ([], st)
  | fuel + 1, a :: rest, env, st =>
    Res.bind (evalExpr fuel a env st) fun (v, st1) =>
    Res.bind (evalArgs fuel rest env st1) fun (vs, st2) =>
    .ok (v :: vs, st2)
termination_by structural fuel => fuel

end

/-- Scanner state of main.rs: source characters, tokens emitted so far, the
two scan pointers and the 1-based line counter.  The source is modelled as a
character list; the Rust code indexes bytes and characters interchangeably,
which coincides on ASCII input. -/
structure ScanState where
  source : List Char
  tokens : List Token
  start : Nat
  current : Nat
  line : Nat

/-- Scanner::is_at_end. -/
def isAtEndS (st : ScanState) : Bool := st.source.length ≤ st.current

/-- Scanner::advance: consume and return the character under current;
indexing past the end is a panic (the unwrap on chars().nth). -/
def advanceS (st : ScanState) : Res (Char × ScanState) :=
  match st.source.get? st.current with
  | some c => .ok (c, { st with current := st.current + 1 })
  | none => .panic ("index out of bounds")

/-- Source slice from index a (inclusive) to b (exclusive) as a string. -/
def sliceStr (st : ScanState) (a b : Nat) : String :=
  String.mk ((st.source.drop a).take (b - a))

/-- Scanner::add_token: push a token whose lexeme is the current slice. -/
def addToken (tt : TokenType) (st : ScanState) : ScanState :=
  { st with tokens := st.tokens ++ [⟨tt, sliceStr st st.start st.current, st.line⟩] }

/-- Scanner::match_char: conditionally consume an expected character.  The
lookup cannot miss after the is_at_end guard, so the impossible branch
reports false rather than a panic. -/
def matchCharS (expected : Char) (st : ScanState) : Bool × ScanState :=
  if isAtEndS st then (false, st)
  else
    match st.source.get? st.current with
    | some d =>
      if d ≠ expected then (false, st)
      else (true, { st with current := st.current + 1 })
    | none => (false, st)

/-- Scanner::peek: the character under current, or NUL at the end. -/
def peekS (st : ScanState) : Char :=
  if isAtEndS st then Char.ofNat 0
  else (st.source.get? st.current).getD (Char.ofNat 0)

/-- Scanner::peek_next: one character of lookahead past current. -/
def peekNextS (st : ScanState) : Char :=
  if st.source.length ≤ st.current + 1 then Char.ofNat 0
  else (st.source.get? (st.current + 1)).getD (Char.ofNat 0)

/-- Body loop of Scanner::string: advance through the literal, counting
newlines, until the closing quote or the end of input. -/
def stringAdvanceLoop : Nat → ScanState → Res ScanState
  | 0, _ => .timeout
  | f + 1, st =>
    if peekS st ≠ '"' ∧ ¬ isAtEndS st then
      Res.bind
        (advanceS (if peekS st = '\n' then { st with line := st.line + 1 } else st))
        fun (_, st2) => stringAdvanceLoop f st2
    else .ok st

/-- Scanner::string: scan a string literal; an unterminated literal is a
panic, otherwise the payload is the raw text between the quotes. -/
def stringTok (f : Nat) (st : ScanState) : Res ScanState :=
  Res.bind (stringAdvanceLoop f st) fun st1 =>
  if isAtEndS st1 then .panic ("Unterminated string at line " ++ toString st1.line)
  else
    Res.bind (advanceS st1) fun (_, st2) =>
    .ok (addToken (.String (sliceStr st2 (st2.start + 1) (st2.current - 1))) st2)

/-- Digit-consuming loop of Scanner::number. -/
def digitsLoop : Nat → ScanState → Res ScanState
  | 0, _ => .timeout
  | f + 1, st =>
    if (peekS st).isDigit then
      Res.bind (advanceS st) fun (_, st1) => digitsLoop f st1
    else .ok st

/-- Tail of Scanner::number: parse the scanned slice as a double (unwrap,
though a digit slice always parses) and emit the Number token. -/
def numberFinish (st : ScanState) : Res ScanState :=
  match parseF64 (sliceStr st st.start st.current) with
  | some v => .ok (addToken (.Number v) st)
  | none => .panic ("invalid float literal")

/-- Scanner::number: integer digits, then an optional fraction when a digit
follows the point. -/
def numberTok (f : Nat) (st : ScanState) : Res ScanState :=
  Res.bind (digitsLoop f st) fun st1 =>
  if peekS st1 = '.' ∧ (peekNextS st1).isDigit then
    Res.bind (advanceS st1) fun (_, st2) =>
    Res.bind (digitsLoop f st2) fun st3 => numberFinish st3
  else numberFinish st1

/-- Alphanumeric-consuming loop of Scanner::identifier.  Rust uses the
Unicode is_alphanumeric; the model restricts to ASCII. -/
def alnumLoop : Nat → ScanState → Res ScanState
  | 0, _ => .timeout
  | f + 1, st =>
    if (peekS st).isAlphanum then
      Res.bind (advanceS st) fun (_, st1) => alnumLoop f st1
    else .ok st

/-- Keyword table of Scanner::identifier (the arms of its match on the
scanned text). -/
def keywordTable : List (String × TokenType) :=
  [("and", .And), ("class", .Class), ("else", .Else), ("false", .False),
   ("for", .For), ("fun", .Fun), ("if", .If), ("nil", .Nil), ("or", .Or),
   ("print", .Print), ("return", .Return), ("super", .Super), ("this", .This),
   ("true", .True), ("var", .Var), ("while", .While)]

/-- Keyword resolution of Scanner::identifier: the matching keyword kind,
or Identifier carrying the text. -/
def keywordType (text : String) : TokenType :=
  match keywordTable.find? (fun p => p.1 == text) with
  | some p => p.2
  | none => .Identifier text

/-- Scanner::identifier: consume the word, then resolve it through the
keyword table. -/
def identifierTok (f : Nat) (st : ScanState) : Res ScanState :=
  Res.bind (alnumLoop f st) fun st1 =>
  .ok (addToken (keywordType (sliceStr st1 st1.start st1.current)) st1)

/-- Comment loop of the slash arm: consume through the end of the line. -/
def commentLoop : Nat → ScanState → Res ScanState
  | 0, _ => .timeout
  | f + 1, st =>
    if peekS st ≠ '\n' ∧ ¬ isAtEndS st then
      Res.bind (advanceS st) fun (_, st1) => commentLoop f st1
    else .ok st

/-- Scanner::scan_token: consume one character and fire its rule.  An
unrecognized character is a panic, matching the Rust code. -/
def scanToken (f : Nat) (st : ScanState) : Res ScanState :=
  Res.bind (advanceS st) fun (c, st1) =>
  match c with
  | '(' => .ok (addToken .LeftParen st1)
  | ')' => .ok (addToken .RightParen st1)
  | '{' => .ok (addToken .LeftBrace st1)
  | '}' => .ok (addToken .RightBrace st1)
  | ',' => .ok (addToken .Comma st1)
  | '.' => .ok (addToken .Dot st1)
  | '-' => .ok (addToken .Minus st1)
  | '+' => .ok (addToken .Plus st1)
  | ';' => .ok (addToken .Semicolon st1)
  | '*' => .ok (addToken .Star st1)
  | '!' =>
    .ok (addToken (if (matchCharS '=' st1).1 then .BangEqual else .Bang)
      (matchCharS '=' st1).2)
  | '=' =>
    .ok (addToken (if (matchCharS '=' st1).1 then .EqualEqual else .Equal)
      (matchCharS '=' st1).2)
  | '<' =>
    .ok (addToken (if (matchCharS '=' st1).1 then .LessEqual else .Less)
      (matchCharS '=' st1).2)
  | '>' =>
    .ok (addToken (if (matchCharS '=' st1).1 then .GreaterEqual else .Greater)
      (matchCharS '=' st1).2)
  | '/' =>
    if (matchCharS '/' st1).1 then commentLoop f (matchCharS '/' st1).2
    else .ok (addToken .Slash (matchCharS '/' st1).2)
  | ' ' => .ok st1
  | '\r' => .ok st1
  | '\t' => .ok st1
  | '\n' => .ok { st1 with line := st1.line + 1 }
  | '"' => stringTok f st1
  | _ =>
    if c.isDigit then numberTok f st1
    else if c.isAlpha then identifierTok f st1
    else .panic ("Unexpected character at line " ++ toString st1.line)

/-- Main loop of Scanner::scan_tokens: snap start to current and scan one
token until the end of input. -/
def scanLoop : Nat → ScanState → Res ScanState
  | 0, _ => .timeout
  | f + 1, st =>
    if isAtEndS st then .ok st
    else
      Res.bind (scanToken f { st with start := st.current }) fun st1 =>
      scanLoop f st1

/-- Scanner state after the main loop, starting from a fresh scanner.  The
fuel (source length + 2) suffices because every scan_token consumes at
least one character. -/
def scanFinal (source : List Char) : Res ScanState :=
  scanLoop (source.length + 2) ⟨source, [], 0, 0, 1⟩

/-- Scanner::scan_tokens: run the loop, then push the Eof token carrying the
final line counter. -/
def scanTokens (source : List Char) : Res (List Token) :=
  match scanFinal source with
  | .ok st => .ok (st.tokens ++ [⟨.Eof, "", st.line⟩])
  | .err e => .err e
  | .panic e => .panic e
  | .timeout => .timeout

/-- Number of Eof tokens in a token list. -/
def countEof (ts : List Token) : Nat :=
  ts.countP (fun t => t.token_type.isEof)

/-- Parser state of parser.rs: the token vector and the cursor. -/
structure ParserState where
  tokens : List Token
  current : Nat

namespace Parser

/-- Parser::peek: the token under the cursor; out of range panics (vector
indexing), which the Eof sentinel normally prevents. -/
def peekP (st : ParserState) : Res Token :=
  match st.tokens.get? st.current with
  | some t => .ok t
  | none => .panic ("index out of bounds")

/-- Parser::previous: the token before the cursor; at cursor zero the usize
subtraction underflows, a panic. -/
def previousP (st : ParserState) : Res Token :=
  if st.current = 0 then .panic ("attempt to subtract with overflow")
  else
    match st.tokens.get? (st.current - 1) with
    | some t => .ok t
    | none => .panic ("index out of bounds")

/-- Parser::is_at_end: whether the cursor token is Eof. -/
def isAtEndP (st : ParserState) : Res Bool :=
  Res.bind (peekP st) fun t => .ok t.token_type.isEof

/-- Parser::check: same-discriminant comparison against the cursor token,
false at the end of input. -/
def checkP (tt : TokenType) (st : ParserState) : Res Bool :=
  Res.bind (isAtEndP st) fun ae =>
  if ae then .ok false
  else Res.bind (peekP st) fun t => .ok (sameKind t.token_type tt)

/-- Parser::advance: move past the cursor token unless at Eof, returning
the token before the new cursor. -/
def advanceP (st : ParserState) : Res (Token × ParserState) :=
  Res.bind (isAtEndP st) fun ae =>
  let st1 := if ae then st else { st with current := st.current + 1 }
  Res.bind (previousP st1) fun t => .ok (t, st1)

/-- Parser::match_token: try each kind in order; at Eof report false, on the
first same-kind hit advance and report true. -/
def matchTokenP : List TokenType → ParserState → Res (Bool × ParserState)
  | [], st => .ok (false, st)
  | tt :: rest, st =>
    Res.bind (peekP st) fun p =>
    if p.token_type.isEof then .ok (false, st)
    else
      Res.bind (checkP tt st) fun c =>
      if c then Res.bind (advanceP st) fun (_, st1) => .ok (true, st1)
      else matchTokenP rest st

/-- Parser::error: format a message at a token, or at end for Eof. -/
def errorMsg (t : Token) (message : String) : String :=
  if t.token_type.isEof then message ++ " at end"
  else message ++ " at '" ++ t.lexeme ++ "'"

/-- Parser::consume: advance past an expected kind or produce the formatted
error. -/
def consumeP (tt : TokenType) (message : String) (st : ParserState) :
    Res (Token × ParserState) :=
  Res.bind (checkP tt st) fun c =>
  if c then advanceP st
  else Res.bind (peekP st) fun t => .err (errorMsg t message)

mutual

/-- Parser::declaration: fun declaration, var declaration, or statement. -/
def declaration : Nat → ParserState → Res (Stmt × ParserState)
  | 0, _ => .timeout
  | f + 1, st =>
    Res.bind (matchTokenP [.Fun] st) fun (m1, st1) =>
    if m1 then function f "function" st1
    else
      Res.bind (matchTokenP [.Var] st1) fun (m2, st2) =>
      if m2 then varDeclaration f st2
      else statement f st2
termination_by structural f => f

/-- Parser::var_declaration. -/
def varDeclaration : Nat → ParserState → Res (Stmt × ParserState)
  | 0, _ => .timeout
  | f + 1, st =>
    Res.bind (consumeP (.Identifier "") "Expect variable name." st) fun (name, st1) =>
    Res.bind (matchTokenP [.Equal] st1) fun (m, st2) =>
    Res.bind
      (if m then
        Res.bind (expression f st2) fun (e, st3) =>
          (.ok (some e, st3) : Res (Option Expr × ParserState))
      else .ok (none, st2)) fun (initializer, st3) =>
    Res.bind (consumeP .Semicolon "Expect ';' after variable declaration." st3)
      fun (_, st4) =>
    .ok (.Var name initializer, st4)

/-- Parser::statement: dispatch on the leading keyword. -/
def statement : Nat → ParserState → Res (Stmt × ParserState)
  | 0, _ => .timeout
  | f + 1, st =>
    Res.bind (matchTokenP [.For] st) fun (m1, st1) =>
    if m1 then forStatement f st1
    else
      Res.bind (matchTokenP [.If] st1) fun (m2, st2) =>
      if m2 then ifStatement f st2
      else
        Res.bind (matchTokenP [.Print] st2) fun (m3, st3) =>
        if m3 then printStatement f st3
        else
          Res.bind (matchTokenP [.Return] st3) fun (m4, st4) =>
          if m4 then returnStatement f st4
          else
            Res.bind (matchTokenP [.While] st4) fun (m5, st5) =>
            if m5 then whileStatement f st5
            else
              Res.bind (matchTokenP [.LeftBrace] st5) fun (m6, st6) =>
              if m6 then
                Res.bind (block f st6) fun (ss, st7) => .ok (.Block ss, st7)
              else expressionStatement f st6
termination_by structural f => f

/-- Parser::while_statement. -/
def whileStatement : Nat → ParserState → Res (Stmt × ParserState)
  | 0, _ => .timeout
  | f + 1, st =>
    Res.bind (consumeP .LeftParen "Expect '(' after 'while'." st) fun (_, st1) =>
    Res.bind (expression f st1) fun (condition, st2) =>
    Res.bind (consumeP .RightParen "Expect ')' after condition." st2) fun (_, st3) =>
    Res.bind (statement f st3) fun (body, st4) =>
    .ok (.While condition body, st4)
termination_by structural f => f

/-- Initializer clause of Parser::for_statement: absent after a semicolon,
else a var declaration or an expression statement. -/
def forInitializer : Nat → ParserState → Res (Option Stmt × ParserState)
  | 0, _ => .timeout
  | f + 1, st =>
    Res.bind (matchTokenP [.Semicolon] st) fun (m1, st1) =>
    if m1 then .ok (none, st1)
    else
      Res.bind (matchTokenP [.Var] st1) fun (m2, st2) =>
      if m2 then
        Res.bind (varDeclaration f st2) fun (s, st3) => .ok (some s, st3)
      else
        Res.bind (expressionStatement f st2) fun (s, st3) => .ok (some s, st3)

/-- Condition clause of Parser::for_statement, including the consume of the
trailing semicolon. -/
def forCondition : Nat → ParserState → Res (Option Expr × ParserState)
  | 0, _ => .timeout
  | f + 1, st =>
    Res.bind (checkP .Semicolon st) fun cs =>
    Res.bind
      (if cs then (.ok (none, st) : Res (Option Expr × ParserState))
       else Res.bind (expression f st) fun (e, st1) => .ok (some e, st1))
      fun (c, st2) =>
    Res.bind (consumeP .Semicolon "Expect ';' after loop condition." st2)
      fun (_, st3) =>
    .ok (c, st3)

/-- Increment clause of Parser::for_statement, including the consume of the
closing parenthesis. -/
def forIncrement : Nat → ParserState → Res (Option Expr × ParserState)
  | 0, _ => .timeout
  | f + 1, st =>
    Res.bind (checkP .RightParen st) fun cr =>
    Res.bind
      (if cr then (.ok (none, st) : Res (Option Expr × ParserState))
       else Res.bind (expression f st) fun (e, st1) => .ok (some e, st1))
      fun (c, st2) =>
    Res.bind (consumeP .RightParen "Expect ')' after for clauses." st2)
      fun (_, st3) =>
    .ok (c, st3)

/-- Parser::for_statement: parse the three clauses and the body, then
desugar into while form exactly as the source does.  The debug println of
the built statement has no effect on the result and is not modelled. -/
def forStatement : Nat → ParserState → Res (Stmt × ParserState)
  | 0, _ => .timeout
  | f + 1, st =>
    Res.bind (consumeP .LeftParen "Expect '(' after 'for'." st) fun (_, st1) =>
    Res.bind (forInitializer f st1) fun (initializer, st2) =>
    Res.bind (forCondition f st2) fun (condition, st3) =>
    Res.bind (forIncrement f st3) fun (increment, st4) =>
    Res.bind (statement f st4) fun (body0, st5) =>
    let body1 :=
      match increment with
      | some inc => Stmt.Block [body0, Stmt.Expression inc]
      | none => body0
    let body2 := Stmt.While (condition.getD (Expr.Literal (Value.Boolean true))) body1
    let body3 :=
      match initializer with
      | some ini => Stmt.Block [ini, body2]
      | none => body2
    .ok (body3, st5)
termination_by structural f => f

/-- Parser::if_statement. -/
def ifStatement : Nat → ParserState → Res (Stmt × ParserState)
  | 0, _ => .timeout
  | f + 1, st =>
    Res.bind (consumeP .LeftParen "Expect '(' after 'if'." st) fun (_, st1) =>
    Res.bind (expression f st1) fun (condition, st2) =>
    Res.bind (consumeP .RightParen "Expect ')' after if condition." st2)
      fun (_, st3) =>
    Res.bind (statement f st3) fun (thenBranch, st4) =>
    Res.bind (matchTokenP [.Else] st4) fun (m, st5) =>
    Res.bind
      (if m then
        Res.bind (statement f st5) fun (s, st6) =>
          (.ok (some s, st6) : Res (Option Stmt × ParserState))
       else .ok (none, st5)) fun (elseBranch, st6) =>
    .ok (.If condition thenBranch elseBranch, st6)
termination_by structural f => f

/-- Declaration loop of Parser::block. -/
def blockLoop : Nat → List Stmt → ParserState → Res (List Stmt × ParserState)
  | 0, _, _ => .timeout
  | f + 1, acc, st =>
    Res.bind (checkP .RightBrace st) fun cb =>
    Res.bind (isAtEndP st) fun ae =>
    if ¬ cb ∧ ¬ ae then
      Res.bind (declaration f st) fun (s, st1) => blockLoop f (acc ++ [s]) st1
    else .ok (acc, st)
termination_by structural f => f

/-- Parser::block: declarations until the closing brace, then consume it. -/
def block : Nat → ParserState → Res (List Stmt × ParserState)
  | 0, _ => .timeout
  | f + 1, st =>
    Res.bind (blockLoop f [] st) fun (ss, st1) =>
    Res.bind (consumeP .RightBrace "Expect '\x7d' after block." st1) fun (_, st2) =>
    .ok (ss, st2)
termination_by structural f => f

/-- Parser::print_statement. -/
def printStatement : Nat → ParserState → Res (Stmt × ParserState)
  | 0, _ => .timeout
  | f + 1, st =>
    Res.bind (expression f st) fun (value, st1) =>
    Res.bind (consumeP .Semicolon "Expect ';' after value." st1) fun (_, st2) =>
    .ok (.Print value, st2)

/-- Parser::return_statement: the keyword token is the one just matched. -/
def returnStatement : Nat → ParserState → Res (Stmt × ParserState)
  | 0, _ => .timeout
  | f + 1, st =>
    Res.bind (previousP st) fun keyword =>
    Res.bind (checkP .Semicolon st) fun cs =>
    Res.bind
      (if cs then (.ok (none, st) : Res (Option Expr × ParserState))
       else Res.bind (expression f st) fun (e, st1) => .ok (some e, st1))
      fun (value, st2) =>
    Res.bind (consumeP .Semicolon "Expect ';' after return value." st2)
      fun (_, st3) =>
    .ok (.Return keyword value, st3)

/-- Parser::expression_statement. -/
def expressionStatement : Nat → ParserState → Res (Stmt × ParserState)
  | 0, _ => .timeout
  | f + 1, st =>
    Res.bind (expression f st) fun (e, st1) =>
    Res.bind (consumeP .Semicolon "Expect ';' after expression." st1) fun (_, st2) =>
    .ok (.Expression e, st2)

/-- Parameter loop of Parser::function: at 255 parameters already collected
the next iteration errors out before consuming the 256th name. -/
def paramsLoop : Nat → List Token → ParserState → Res (List Token × ParserState)
  | 0, _, _ => .timeout
  | f + 1, parameters, st =>
    if parameters.length ≥ 255 then
      Res.bind (peekP st) fun t =>
        .err (errorMsg t "Can't have more than 255 parameters.")
    else
      Res.bind (consumeP (.Identifier "") "Expect parameter name." st)
        fun (p, st1) =>
      Res.bind (matchTokenP [.Comma] st1) fun (m, st2) =>
      if m then paramsLoop f (parameters ++ [p]) st2
      else .ok (parameters ++ [p], st2)
termination_by structural f => f

/-- Parser::function. -/
def function : Nat → String → ParserState → Res (Stmt × ParserState)
  | 0, _, _ => .timeout
  | f + 1, kind, st =>
    Res.bind (consumeP (.Identifier "") ("Expect " ++ kind ++ " name.") st)
      fun (name, st1) =>
    Res.bind (consumeP .LeftParen ("Expect '(' after " ++ kind ++ " name.") st1)
      fun (_, st2) =>
    Res.bind (checkP .RightParen st2) fun cr =>
    Res.bind
      (if cr then (.ok ([], st2) : Res (List Token × ParserState))
       else paramsLoop f [] st2) fun (parameters, st3) =>
    Res.bind (consumeP .RightParen "Expect ')' after parameters." st3)
      fun (_, st4) =>
    Res.bind (consumeP .LeftBrace ("Expect '\x7b' before " ++ kind ++ " body.") st4)
      fun (_, st5) =>
    Res.bind (block f st5) fun (body, st6) =>
    .ok (.Function name parameters body, st6)
termination_by structural f => f

/-- Parser::expression. -/
def expression : Nat → ParserState → Res (Expr × ParserState)
  | 0, _ => .timeout
  | f + 1, st => assignment f st
termination_by structural f => f

/-- Parser::assignment: parse an r-value, then, after an equals sign, require
the left side to be a Variable node. -/
def assignment : Nat → ParserState → Res (Expr × ParserState)
  | 0, _ => .timeout
  | f + 1, st =>
    Res.bind (orExpr f st) fun (expr, st1) =>
    Res.bind (matchTokenP [.Equal] st1) fun (m, st2) =>
    if m then
      Res.bind (previousP st2) fun equals =>
      Res.bind (assignment f st2) fun (value, st3) =>
      match expr with
      | .Variable name => .ok (.Assign name value, st3)
      | _ => .err (errorMsg equals "Invalid assignment target.")
    else .ok (expr, st2)
termination_by structural f => f

/-- Parser::or (logical or level). -/
def orExpr : Nat → ParserState → Res (Expr × ParserState)
  | 0, _ => .timeout
  | f + 1, st =>
    Res.bind (andExpr f st) fun (expr, st1) => orLoop f expr st1
termination_by structural f => f

/-- Operator loop of Parser::or. -/
def orLoop : Nat → Expr → ParserState → Res (Expr × ParserState)
  | 0, _, _ => .timeout
  | f + 1, expr, st =>
    Res.bind (matchTokenP [.Or] st) fun (m, st1) =>
    if m then
      Res.bind (previousP st1) fun operator =>
      Res.bind (andExpr f st1) fun (right, st2) =>
      orLoop f (.Logical expr operator right) st2
    else .ok (expr, st1)
termination_by structural f => f

/-- Parser::and (logical and level). -/
def andExpr : Nat → ParserState → Res (Expr × ParserState)
  | 0, _ => .timeout
  | f + 1, st =>
    Res.bind (equality f st) fun (expr, st1) => andLoop f expr st1
termination_by structural f => f

/-- Operator loop of Parser::and. -/
def andLoop : Nat → Expr → ParserState → Res (Expr × ParserState)
  | 0, _, _ => .timeout
  | f + 1, expr, st =>
    Res.bind (matchTokenP [.And] st) fun (m, st1) =>
    if m then
      Res.bind (previousP st1) fun operator =>
      Res.bind (equality f st1) fun (right, st2) =>
      andLoop f (.Logical expr operator right) st2
    else .ok (expr, st1)
termination_by structural f => f

/-- Parser::equality. -/
def equality : Nat → ParserState → Res (Expr × ParserState)
  | 0, _ => .timeout
  | f + 1, st =>
    Res.bind (comparison f st) fun (expr, st1) => equalityLoop f expr st1
termination_by structural f => f

/-- Operator loop of Parser::equality. -/
def equalityLoop : Nat → Expr → ParserState → Res (Expr × ParserState)
  | 0, _, _ => .timeout
  | f + 1, expr, st =>
    Res.bind (matchTokenP [.BangEqual, .EqualEqual] st) fun (m, st1) =>
    if m then
      Res.bind (previousP st1) fun operator =>
      Res.bind (comparison f st1) fun (right, st2) =>
      equalityLoop f (.Binary expr operator right) st2
    else .ok (expr, st1)
termination_by structural f => f

/-- Parser::comparison. -/
def comparison : Nat → ParserState → Res (Expr × ParserState)
  | 0, _ => .timeout
  | f + 1, st =>
    Res.bind (term f st) fun (expr, st1) => comparisonLoop f expr st1
termination_by structural f => f

/-- Operator loop of Parser::comparison. -/
def comparisonLoop : Nat → Expr → ParserState → Res (Expr × ParserState)
  | 0, _, _ => .timeout
  | f + 1, expr, st =>
    Res.bind (matchTokenP [.Greater, .GreaterEqual, .Less, .LessEqual] st)
      fun (m, st1) =>
    if m then
      Res.bind (previousP st1) fun operator =>
      Res.bind (term f st1) fun (right, st2) =>
      comparisonLoop f (.Binary expr operator right) st2
    else .ok (expr, st1)
termination_by structural f => f

/-- Parser::term. -/
def term : Nat → ParserState → Res (Expr × ParserState)
  | 0, _ => .timeout
  | f + 1, st =>
    Res.bind (factor f st) fun (expr, st1) => termLoop f expr st1
termination_by structural f => f

/-- Operator loop of Parser::term. -/
def termLoop : Nat → Expr → ParserState → Res (Expr × ParserState)
  | 0, _, _ => .timeout
  | f + 1, expr, st =>
    Res.bind (matchTokenP [.Minus, .Plus] st) fun (m, st1) =>
    if m then
      Res.bind (previousP st1) fun operator =>
      Res.bind (factor f st1) fun (right, st2) =>
      termLoop f (.Binary expr operator right) st2
    else .ok (expr, st1)
termination_by structural f => f

/-- Parser::factor. -/
def factor : Nat → ParserState → Res (Expr × ParserState)
  | 0, _ => .timeout
  | f + 1, st =>
    Res.bind (unary f st) fun (expr, st1) => factorLoop f expr st1
termination_by structural f => f

/-- Operator loop of Parser::factor. -/
def factorLoop : Nat → Expr → ParserState → Res (Expr × ParserState)
  | 0, _, _ => .timeout
  | f + 1, expr, st =>
    Res.bind (matchTokenP [.Slash, .Star] st) fun (m, st1) =>
    if m then
      Res.bind (previousP st1) fun operator =>
      Res.bind (unary f st1) fun (right, st2) =>
      factorLoop f (.Binary expr operator right) st2
    else .ok (expr, st1)
termination_by structural f => f

/-- Parser::unary. -/
def unary : Nat → ParserState → Res (Expr × ParserState)
  | 0, _ => .timeout
  | f + 1, st =>
    Res.bind (matchTokenP [.Bang, .Minus] st) fun (m, st1) =>
    if m then
      Res.bind (previousP st1) fun operator =>
      Res.bind (unary f st1) fun (right, st2) =>
      .ok (.Unary operator right, st2)
    else call f st1
termination_by structural f => f

/-- Parser::call. -/
def call : Nat → ParserState → Res (Expr × ParserState)
  | 0, _ => .timeout
  | f + 1, st =>
    Res.bind (primary f st) fun (expr, st1) => callLoop f expr st1
termination_by structural f => f

/-- Invocation loop of Parser::call. -/
def callLoop : Nat → Expr → ParserState → Res (Expr × ParserState)
  | 0, _, _ => .timeout
  | f + 1, expr, st =>
    Res.bind (matchTokenP [.LeftParen] st) fun (m, st1) =>
    if m then
      Res.bind (finishCall f expr st1) fun (e2, st2) => callLoop f e2 st2
    else .ok (expr, st1)
termination_by structural f => f

/-- Argument loop of Parser::finish_call: at 255 arguments already collected
the next iteration errors out before parsing the 256th argument. -/
def argsLoop : Nat → List Expr → ParserState → Res (List Expr × ParserState)
  | 0, _, _ => .timeout
  | f + 1, arguments, st =>
    if arguments.length ≥ 255 then
      Res.bind (peekP st) fun t =>
        .err (errorMsg t "Can't have more than 255 arguments.")
    else
      Res.bind (expression f st) fun (a, st1) =>
      Res.bind (matchTokenP [.Comma] st1) fun (m, st2) =>
      if m then argsLoop f (arguments ++ [a]) st2
      else .ok (arguments ++ [a], st2)
termination_by structural f => f

/-- Parser::finish_call. -/
def finishCall : Nat → Expr → ParserState → Res (Expr × ParserState)
  | 0, _, _ => .timeout
  | f + 1, callee, st =>
    Res.bind (checkP .RightParen st) fun cr =>
    Res.bind
      (if cr then (.ok ([], st) : Res (List Expr × ParserState))
       else argsLoop f [] st) fun (arguments, st1) =>
    Res.bind (consumeP .RightParen "Expect ')' after arguments." st1)
      fun (paren, st2) =>
    .ok (.Call callee paren arguments, st2)
termination_by structural f => f

/-- Parser::primary. -/
def primary : Nat → ParserState → Res (Expr × ParserState)
  | 0, _ => .timeout
  | f + 1, st =>
    Res.bind (peekP st) fun t =>
    match t.token_type with
    | .False =>
      Res.bind (advanceP st) fun (_, st1) =>
      .ok (.Literal (.Boolean false), st1)
    | .True =>
      Res.bind (advanceP st) fun (_, st1) =>
      .ok (.Literal (.Boolean true), st1)
    | .Nil =>
      Res.bind (advanceP st) fun (_, st1) => .ok (.Literal .Nil, st1)
    | .Number n =>
      Res.bind (advanceP st) fun (_, st1) => .ok (.Literal (.Number n), st1)
    | .String s =>
      Res.bind (advanceP st) fun (_, st1) => .ok (.Literal (.String s), st1)
    | .Identifier _ =>
      Res.bind (advanceP st) fun (prev, st1) => .ok (.Variable prev, st1)
    | .LeftParen =>
      Res.bind (advanceP st) fun (_, st1) =>
      Res.bind (expression f st1) fun (e, st2) =>
      Res.bind (consumeP .RightParen "Expect ')' after expression." st2)
        fun (_, st3) =>
      .ok (.Grouping e, st3)
    | _ => .err (errorMsg t "Expect expression.")
termination_by structural f => f

/-- Declaration loop of Parser::parse: an error from any declaration
propagates and ends the parse. -/
def parseLoop : Nat → List Stmt → ParserState → Res (List Stmt × ParserState)
  | 0, _, _ => .timeout
  | f + 1, acc, st =>
    Res.bind (isAtEndP st) fun ae =>
    if ae then .ok (acc, st)
    else
      Res.bind (declaration f st) fun (s, st1) => parseLoop f (acc ++ [s]) st1
termination_by structural f => f

end

/-- Parser::parse over a fresh cursor. -/
def parse (fuel : Nat) (tokens : List Token) : Res (List Stmt) :=
  Res.bind (parseLoop fuel [] ⟨tokens, 0⟩) fun (ss, _) => .ok ss

end Parser

/-! Specification-side definitions: the vocabulary the claims are stated
in, written from the spec text and compared against the embedded code. -/

/-- Whether following enclosing links from index i reaches a root scope
within the fuel, through live indices only. -/
def validChain : Nat → List Environment → Nat → Bool
  | 0, _, _ => false
  | f + 1, h, i =>
    match heapGet h i with
    | none => false
    | some d =>
      match d.enclosing with
      | none => true
      | some j => validChain f h j

/-- Scope indices from i outward along the enclosing chain. -/
def chainIds : Nat → List Environment → Nat → List Nat
  | 0, _, _ => []
  | f + 1, h, i =>
    i :: (match heapGet h i with
      | some d =>
        match d.enclosing with
        | some j => chainIds f h j
        | none => []
      | none => [])

/-- Innermost binding of a name along a scope chain: the first listed scope
whose map contains the name, together with its record and bound value. -/
def specLookup (h : List Environment) : List Nat → String →
    Option (Nat × Environment × Value)
  | [], _ => none
  | j :: rest, name =>
    match heapGet h j with
    | some d =>
      match lookupVal d.values name with
      | some v => some (j, d, v)
      | none => specLookup h rest name
    | none => specLookup h rest name

/-- Statement syntactically headed by the return keyword. -/
def isReturnStmt : Stmt → Bool
  | .Return _ _ => true
  | _ => false

/-- Desugared form of a for statement as the spec states it: Block of the
initializer (when present) and a While whose condition defaults to literal
true and whose body wraps the original body with the increment (when
present) in an inner Block. -/
def forDesugarSpec (oInit : Option Stmt) (oCond : Option Expr)
    (oInc : Option Expr) (body : Stmt) : Stmt :=
  let inner :=
    match oInc with
    | some inc => Stmt.Block [body, Stmt.Expression inc]
    | none => body
  let loop := Stmt.While (oCond.getD (Expr.Literal (Value.Boolean true))) inner
  match oInit with
  | some ini => Stmt.Block [ini, loop]
  | none => loop

/-! Helper lemmas about the heap and the association lists. -/

theorem Frac.num_ofNat (n : Nat) : (OfNat.ofNat n : Frac).num = n := rfl

theorem Frac.den_ofNat (n : Nat) : (OfNat.ofNat n : Frac).den = 1 := rfl

theorem lookupVal_insertVal_self (vs : List (String × Value)) (name : String)
    (v : Value) : lookupVal (insertVal vs name v) name = some v := by
  induction vs with
  | nil => simp [insertVal, lookupVal]
  | cons p rest ih =>
    obtain ⟨k, w⟩ := p
    by_cases hk : k = name
    · simp [insertVal, hk, lookupVal]
    · simp [insertVal, hk, lookupVal, ih]

theorem lookupVal_insertVal_ne (vs : List (String × Value)) (name m : String)
    (v : Value) (hm : m ≠ name) :
    lookupVal (insertVal vs name v) m = lookupVal vs m := by
  have hmn : name ≠ m := Ne.symm hm
  induction vs with
  | nil => simp [insertVal, lookupVal, hmn]
  | cons p rest ih =>
    obtain ⟨k, w⟩ := p
    by_cases hk : k = name
    · subst hk
      simp [insertVal, lookupVal, hmn]
    · by_cases hkm : k = m
      · simp [insertVal, hk, lookupVal, hkm, hm]
      · simp [insertVal, hk, lookupVal, hkm, ih]

theorem heapGet_heapSet_self (h : List Environment) (i : Nat)
    (d d2 : Environment) (hg : heapGet h i = some d) :
    heapGet (heapSet h i d2) i = some d2 := by
  induction h generalizing i with
  | nil => simp [heapGet] at hg
  | cons e rest ih =>
    cases i with
    | zero => simp [heapGet, heapSet]
    | succ n => simpa [heapGet, heapSet] using ih n (by simpa [heapGet] using hg)

theorem heapGet_heapSet_ne (h : List Environment) (i j : Nat)
    (d2 : Environment) (hne : j ≠ i) :
    heapGet (heapSet h i d2) j = heapGet h j := by
  induction h generalizing i j with
  | nil => simp [heapSet]
  | cons e rest ih =>
    cases i with
    | zero =>
      cases j with
      | zero => exact absurd rfl hne
      | succ m => simp [heapGet, heapSet]
    | succ n =>
      cases j with
      | zero => simp [heapGet, heapSet]
      | succ m =>
        simpa [heapGet, heapSet] using ih n m (fun hc => hne (by simp [hc]))

/-- Environment::get agrees with the innermost-binding walk along the
enclosing chain and produces the exact undefined-variable message when no
scope binds the name. -/
theorem envGet_spec (f : Nat) (h : List Environment) (i : Nat) (name : Token)
    (hv : validChain f h i = true) :
    Environment.get f h i name =
      (match specLookup h (chainIds f h i) name.lexeme with
       | some (_, _, w) => Res.ok w
       | none => Res.err ("Undefined variable '" ++ name.lexeme ++ "'.")) := by
  induction f generalizing i with
  | zero => simp [validChain] at hv
  | succ f ih =>
    cases hg : heapGet h i with
    | none => simp [validChain, hg] at hv
    | some d =>
      cases hl : lookupVal d.values name.lexeme with
      | some v =>
        simp [Environment.get, hg, hl, chainIds, specLookup]
      | none =>
        cases he : d.enclosing with
        | none =>
          simp [Environment.get, hg, hl, he, chainIds, specLookup]
        | some j =>
          simp only [validChain, hg, he] at hv
          simp [Environment.get, hg, hl, he, chainIds, specLookup, ih j hv]

/-- Environment::assign agrees with the innermost-binding walk: it rewrites
exactly the first scope of the chain that contains the name and fails with
the exact undefined-variable message otherwise. -/
theorem envAssign_spec (f : Nat) (h : List Environment) (i : Nat)
    (name : Token) (v : Value) (hv : validChain f h i = true) :
    Environment.assign f h i name v =
      (match specLookup h (chainIds f h i) name.lexeme with
       | some (j, dj, _) =>
         Res.ok (heapSet h j { dj with values := insertVal dj.values name.lexeme v })
       | none => Res.err ("Undefined variable '" ++ name.lexeme ++ "'.")) := by
  induction f generalizing i with
  | zero => simp [validChain] at hv
  | succ f ih =>
    cases hg : heapGet h i with
    | none => simp [validChain, hg] at hv
    | some d =>
      cases hl : lookupVal d.values name.lexeme with
      | some v0 =>
        simp [Environment.assign, hg, hl, chainIds, specLookup]
      | none =>
        cases he : d.enclosing with
        | none =>
          simp [Environment.assign, hg, hl, he, chainIds, specLookup]
        | some j =>
          simp only [validChain, hg, he] at hv
          simp [Environment.assign, hg, hl, he, chainIds, specLookup, ih j hv]

/-- Claim C5: get walks the enclosing chain outward to the innermost
binding, failing with the exact undefined-variable message when no scope
binds the name; assign writes into the innermost scope already containing
the name (leaving every other scope untouched) and fails identically when
none does; define writes into the current scope itself, creating or
overwriting the binding there and touching no other scope. -/
theorem env_claim_C5 (fuel : Nat) (h : List Environment) (i : Nat)
    (name : Token) (v : Value) (d : Environment)
    (hv : validChain fuel h i = true) (hd : heapGet h i = some d) :
    (Environment.get fuel h i name =
      (match specLookup h (chainIds fuel h i) name.lexeme with
       | some (_, _, w) => Res.ok w
       | none => Res.err ("Undefined variable '" ++ name.lexeme ++ "'.")))
    ∧ (Environment.assign fuel h i name v =
      (match specLookup h (chainIds fuel h i) name.lexeme with
       | some (j, dj, _) =>
         Res.ok (heapSet h j { dj with values := insertVal dj.values name.lexeme v })
       | none => Res.err ("Undefined variable '" ++ name.lexeme ++ "'.")))
    ∧ (Environment.define h i name.lexeme v =
        heapSet h i { d with values := insertVal d.values name.lexeme v })
    ∧ lookupVal (insertVal d.values name.lexeme v) name.lexeme = some v
    ∧ (∀ m, m ≠ name.lexeme →
        lookupVal (insertVal d.values name.lexeme v) m = lookupVal d.values m)
    ∧ (∀ j, j ≠ i →
        heapGet (heapSet h i { d with values := insertVal d.values name.lexeme v }) j
          = heapGet h j) := by
  refine ⟨envGet_spec fuel h i name hv, envAssign_spec fuel h i name v hv, ?_, ?_, ?_, ?_⟩
  · simp [Environment.define, hd]
  · exact lookupVal_insertVal_self d.values name.lexeme v
  · exact fun m hm => lookupVal_insertVal_ne d.values name.lexeme m v hm
  · exact fun j hj => heapGet_heapSet_ne h i j _ hj

/-- Witness for C5 at a two-scope chain where the inner scope shadows x:
get from the inner scope returns the inner binding, assign rewrites the
inner scope, and define targets the current scope. -/
theorem env_claim_C5_witness :
    (Environment.get 3
      [⟨none, [("x", .Number (.fin 1)), ("y", .Number (.fin 5))]⟩,
       ⟨some 0, [("x", .Number (.fin 2))]⟩] 1 ⟨.Identifier "x", "x", 1⟩ =
      (match specLookup
          [⟨none, [("x", .Number (.fin 1)), ("y", .Number (.fin 5))]⟩,
           ⟨some 0, [("x", .Number (.fin 2))]⟩]
          (chainIds 3
            [⟨none, [("x", .Number (.fin 1)), ("y", .Number (.fin 5))]⟩,
             ⟨some 0, [("x", .Number (.fin 2))]⟩] 1) "x" with
       | some (_, _, w) => Res.ok w
       | none => Res.err ("Undefined variable '" ++ "x" ++ "'.")))
    ∧ (Environment.assign 3
      [⟨none, [("x", .Number (.fin 1)), ("y", .Number (.fin 5))]⟩,
       ⟨some 0, [("x", .Number (.fin 2))]⟩] 1 ⟨.Identifier "x", "x", 1⟩
      (.Number (.fin 9)) =
      (match specLookup
          [⟨none, [("x", .Number (.fin 1)), ("y", .Number (.fin 5))]⟩,
           ⟨some 0, [("x", .Number (.fin 2))]⟩]
          (chainIds 3
            [⟨none, [("x", .Number (.fin 1)), ("y", .Number (.fin 5))]⟩,
             ⟨some 0, [("x", .Number (.fin 2))]⟩] 1) "x" with
       | some (j, dj, _) =>
         Res.ok (heapSet
           [⟨none, [("x", .Number (.fin 1)), ("y", .Number (.fin 5))]⟩,
            ⟨some 0, [("x", .Number (.fin 2))]⟩] j
           { dj with values := insertVal dj.values "x" (.Number (.fin 9)) })
       | none => Res.err ("Undefined variable '" ++ "x" ++ "'.")))
    ∧ (Environment.define
      [⟨none, [("x", .Number (.fin 1)), ("y", .Number (.fin 5))]⟩,
       ⟨some 0, [("x", .Number (.fin 2))]⟩] 1 "x" (.Number (.fin 9)) =
        heapSet
          [⟨none, [("x", .Number (.fin 1)), ("y", .Number (.fin 5))]⟩,
           ⟨some 0, [("x", .Number (.fin 2))]⟩] 1
          { enclosing := some 0,
            values := insertVal [("x", .Number (.fin 2))] "x" (.Number (.fin 9)) })
    ∧ lookupVal (insertVal [("x", .Number (.fin 2))] "x" (.Number (.fin 9))) "x"
        = some (.Number (.fin 9))
    ∧ (∀ m, m ≠ "x" →
        lookupVal (insertVal [("x", .Number (.fin 2))] "x" (.Number (.fin 9))) m
          = lookupVal [("x", .Number (.fin 2))] m)
    ∧ (∀ j, j ≠ 1 →
        heapGet (heapSet
          [⟨none, [("x", .Number (.fin 1)), ("y", .Number (.fin 5))]⟩,
           ⟨some 0, [("x", .Number (.fin 2))]⟩] 1
          { enclosing := some 0,
            values := insertVal [("x", .Number (.fin 2))] "x" (.Number (.fin 9)) }) j
          = heapGet
          [⟨none, [("x", .Number (.fin 1)), ("y", .Number (.fin 5))]⟩,
           ⟨some 0, [("x", .Number (.fin 2))]⟩] j) :=
  env_claim_C5 3
    [⟨none, [("x", .Number (.fin 1)), ("y", .Number (.fin 5))]⟩,
     ⟨some 0, [("x", .Number (.fin 2))]⟩] 1 ⟨.Identifier "x", "x", 1⟩
    (.Number (.fin 9)) ⟨some 0, [("x", .Number (.fin 2))]⟩ rfl rfl

/-- Claim C1 (code bug): the source does not implement return as a non-error
unwinding signal.  First conjunct: a top-level return statement produces
Err carrying the Display text of the returned value (here nil), on the same
channel as runtime errors and without the promised return-from-top-level
message.  Second conjunct: a return nested inside an if within a called
function's body is not caught at the call boundary; the boundary loop
unwraps the Err it travels on and panics with the displayed value.  Third
conjunct: only a return that is syntactically a top-level statement of the
body is intercepted and delivers its value. -/
theorem claim_C1_code_bug :
    evalStmt 10 (.Return ⟨.Return, "return", 1⟩ none) 0
      ⟨[⟨none, []⟩], [], .fin 0⟩ = .err "nil"
    ∧ evalExpr 30
        (.Call (.Variable ⟨.Identifier "f", "f", 1⟩) ⟨.RightParen, ")", 1⟩ []) 0
        ⟨[⟨none, [("f", .Function ⟨.Identifier "f", "f", 1⟩ []
          [.If (.Literal (.Boolean true))
            (.Return ⟨.Return, "return", 1⟩ (some (.Literal (.Number (.fin 1)))))
            none] 0)]⟩], [], .fin 0⟩ = .panic "1"
    ∧ evalExpr 30
        (.Call (.Variable ⟨.Identifier "g", "g", 1⟩) ⟨.RightParen, ")", 1⟩ []) 0
        ⟨[⟨none, [("g", .Function ⟨.Identifier "g", "g", 1⟩ []
          [.Return ⟨.Return, "return", 1⟩ (some (.Literal (.Number (.fin 2))))] 0)]⟩],
         [], .fin 0⟩ =
        .ok (.Number (.fin 2),
          ⟨[⟨none, [("g", .Function ⟨.Identifier "g", "g", 1⟩ []
            [.Return ⟨.Return, "return", 1⟩ (some (.Literal (.Number (.fin 2))))] 0)]⟩,
            ⟨some 0, []⟩], [], .fin 0⟩) :=
  ⟨rfl, rfl, rfl⟩

/-- Claim C2 (code bug): the Binary arm of Expr::evaluate has no EqualEqual
case, so every equality expression falls into the catch-all panic; only
BangEqual is dispatched, and it does follow derived structural equality
(second through fourth conjuncts: 1 != 1 is false, nil != nil is false,
NaN != NaN is true). -/
theorem claim_C2_code_bug :
    evalExpr 10 (.Binary (.Literal (.Number (.fin 1))) ⟨.EqualEqual, "==", 1⟩
        (.Literal (.Number (.fin 1)))) 0 ⟨[⟨none, []⟩], [], .fin 0⟩ =
      .panic "Unexpected operator =="
    ∧ evalExpr 10 (.Binary (.Literal (.Number (.fin 1))) ⟨.BangEqual, "!=", 1⟩
        (.Literal (.Number (.fin 1)))) 0 ⟨[⟨none, []⟩], [], .fin 0⟩ =
      .ok (.Boolean false, ⟨[⟨none, []⟩], [], .fin 0⟩)
    ∧ evalExpr 10 (.Binary (.Literal .Nil) ⟨.BangEqual, "!=", 1⟩
        (.Literal .Nil)) 0 ⟨[⟨none, []⟩], [], .fin 0⟩ =
      .ok (.Boolean false, ⟨[⟨none, []⟩], [], .fin 0⟩)
    ∧ evalExpr 10 (.Binary (.Literal (.Number .nan)) ⟨.BangEqual, "!=", 1⟩
        (.Literal (.Number .nan))) 0 ⟨[⟨none, []⟩], [], .fin 0⟩ =
      .ok (.Boolean true, ⟨[⟨none, []⟩], [], .fin 0⟩) :=
  ⟨rfl, rfl, rfl, rfl⟩

/-- Counterexample to claim C3 as stated: the number 0 and the empty string
coerce to false, not true, and unary bang on the literal 0 therefore yields
true in the evaluator. -/
theorem claim_C3_counterexample :
    Value.to_boolean (.Number (.fin 0)) = false
    ∧ Value.to_boolean (.String "") = false
    ∧ evalExpr 5 (.Unary ⟨.Bang, "!", 1⟩ (.Literal (.Number (.fin 0)))) 0
        ⟨[⟨none, []⟩], [], .fin 0⟩ =
      .ok (.Boolean true, ⟨[⟨none, []⟩], [], .fin 0⟩) :=
  ⟨rfl, rfl, rfl⟩

/-- Claim C3 as amended: the truthiness coercion to_boolean is false exactly
on Nil, Boolean false, the number 0, and the empty string; every other
value, NaN and nonzero numbers and nonempty strings and functions included,
is truthy.  The second conjunct shows the evaluator routing unary bang
through this coercion; the if, while and logical arms call the same
function, as their definitions show. -/
theorem claim_C3_amended :
    (∀ v : Value, v.to_boolean = false ↔
      (v = .Nil ∨ v = .Boolean false ∨
        (∃ q : Frac, v = .Number (.fin q) ∧ q.num = 0) ∨ v = .String ""))
    ∧ (∀ (f : Nat) (v : Value) (env : Nat) (st : EvalSt) (lex : String) (ln : Nat),
        evalExpr (f + 2) (.Unary ⟨.Bang, lex, ln⟩ (.Literal v)) env st =
          .ok (.Boolean (!v.to_boolean), st)) := by
  constructor
  · intro v
    cases v with
    | Boolean b => cases b <;> simp [Value.to_boolean]
    | Nil => simp [Value.to_boolean]
    | Number x =>
      cases x with
      | nan => simp [Value.to_boolean, F64.ieeeEq]
      | inf s => simp [Value.to_boolean, F64.ieeeEq]
      | fin q =>
        have h0 : (0 : Frac).num = 0 := rfl
        have h1 : (0 : Frac).den = 1 := rfl
        by_cases hq : q.num = 0 <;>
          simp [Value.to_boolean, F64.ieeeEq, Frac.eqv, h0, h1, hq]
    | String s => simp [Value.to_boolean, String.isEmpty_iff]
    | Function n p b c => simp [Value.to_boolean]
    | NativeFunction nf => simp [Value.to_boolean]
  · intro f v env st lex ln
    simp [evalExpr, Res.bind]

/-- Claim C4 (code bug): binary plus never concatenates.  Two string
operands are each parsed as doubles and added numerically (first conjunct:
the strings 1 and 2 sum to the number 3, not the string 12); mixed operand
variants coerce through to_number instead of producing a runtime error
(second and third conjuncts). -/
theorem claim_C4_code_bug :
    evalExpr 10 (.Binary (.Literal (.String "1")) ⟨.Plus, "+", 1⟩
        (.Literal (.String "2"))) 0 ⟨[⟨none, []⟩], [], .fin 0⟩ =
      .ok (.Number (.fin 3), ⟨[⟨none, []⟩], [], .fin 0⟩)
    ∧ evalExpr 10 (.Binary (.Literal (.String "1")) ⟨.Plus, "+", 1⟩
        (.Literal (.Number (.fin 2)))) 0 ⟨[⟨none, []⟩], [], .fin 0⟩ =
      .ok (.Number (.fin 3), ⟨[⟨none, []⟩], [], .fin 0⟩)
    ∧ evalExpr 10 (.Binary (.Literal (.Boolean true)) ⟨.Plus, "+", 1⟩
        (.Literal .Nil)) 0 ⟨[⟨none, []⟩], [], .fin 0⟩ =
      .ok (.Number (.fin 1), ⟨[⟨none, []⟩], [], .fin 0⟩) :=
  ⟨rfl, rfl, rfl⟩

/-- Claim C6: the short-circuit law of the Logical arm.  When the left
operand of or is truthy the left value is returned as-is with the state
exactly as the left evaluation produced it, so the right operand
contributes no evaluation and no effect; symmetrically for and with a
non-truthy left; in the remaining cases the result is exactly the
evaluation of the right operand from the post-left state. -/
theorem logical_claim_C6 (f : Nat) (a b : Expr) (env : Nat) (st st1 : EvalSt)
    (v : Value) (orTok andTok : Token)
    (hor : orTok.token_type = .Or) (hand : andTok.token_type = .And)
    (ha : evalExpr f a env st = .ok (v, st1)) :
    (v.to_boolean = true →
      evalExpr (f + 1) (.Logical a orTok b) env st = .ok (v, st1))
    ∧ (v.to_boolean = false →
      evalExpr (f + 1) (.Logical a andTok b) env st = .ok (v, st1))
    ∧ (v.to_boolean = false →
      evalExpr (f + 1) (.Logical a orTok b) env st = evalExpr f b env st1)
    ∧ (v.to_boolean = true →
      evalExpr (f + 1) (.Logical a andTok b) env st = evalExpr f b env st1) := by
  refine ⟨?_, ?_, ?_, ?_⟩ <;> intro ht <;>
    simp [evalExpr, Res.bind, ha, hor, hand, ht]

/-- Witness for C6: or with a truthy left string returns the string as-is
and never evaluates the right operand, an unbound variable whose evaluation
would fail. -/
theorem logical_claim_C6_witness :
    evalExpr 3 (.Logical (.Literal (.String "hi")) ⟨.Or, "or", 1⟩
        (.Variable ⟨.Identifier "z", "z", 1⟩)) 0 ⟨[⟨none, []⟩], [], .fin 0⟩ =
      .ok (.String "hi", ⟨[⟨none, []⟩], [], .fin 0⟩) :=
  (logical_claim_C6 2 (.Literal (.String "hi"))
    (.Variable ⟨.Identifier "z", "z", 1⟩) 0
    ⟨[⟨none, []⟩], [], .fin 0⟩ ⟨[⟨none, []⟩], [], .fin 0⟩
    (.String "hi") ⟨.Or, "or", 1⟩ ⟨.And, "and", 1⟩ rfl rfl rfl).1 rfl

/-- Claim C7: whenever the clause parsers and the body parser of
Parser::for_statement succeed, the returned statement is exactly the
spec's desugaring Block of optional initializer around While of the
defaulted condition around Block of body and optional increment, built on
the same final parser state.  The desugared output is itself the
corresponding while program, so the observable behavior of the for
statement is that program's. -/
theorem claim_C7 (f : Nat) (st st1 st2 st3 st4 st5 : ParserState)
    (tpar : Token) (oInit : Option Stmt) (oCond oInc : Option Expr)
    (body : Stmt)
    (h1 : Parser.consumeP .LeftParen "Expect '(' after 'for'." st = .ok (tpar, st1))
    (h2 : Parser.forInitializer f st1 = .ok (oInit, st2))
    (h3 : Parser.forCondition f st2 = .ok (oCond, st3))
    (h4 : Parser.forIncrement f st3 = .ok (oInc, st4))
    (h5 : Parser.statement f st4 = .ok (body, st5)) :
    Parser.forStatement (f + 1) st =
      .ok (forDesugarSpec oInit oCond oInc body, st5) := by
  cases oInc <;> cases oInit <;>
    simp [Parser.forStatement, Res.bind, h1, h2, h3, h4, h5, forDesugarSpec]

/-- Token list of the program fragment after the for keyword:
open paren, var i = 0 ; i < 3 ; i = i + 1, close paren, print 7 ;. -/
def c7Tokens : List Token :=
  [⟨.LeftParen, "(", 1⟩, ⟨.Var, "var", 1⟩, ⟨.Identifier "i", "i", 1⟩,
   ⟨.Equal, "=", 1⟩, ⟨.Number (.fin 0), "0", 1⟩, ⟨.Semicolon, ";", 1⟩,
   ⟨.Identifier "i", "i", 1⟩, ⟨.Less, "<", 1⟩, ⟨.Number (.fin 3), "3", 1⟩,
   ⟨.Semicolon, ";", 1⟩, ⟨.Identifier "i", "i", 1⟩, ⟨.Equal, "=", 1⟩,
   ⟨.Identifier "i", "i", 1⟩, ⟨.Plus, "+", 1⟩, ⟨.Number (.fin 1), "1", 1⟩,
   ⟨.RightParen, ")", 1⟩, ⟨.Print, "print", 1⟩, ⟨.Number (.fin 7), "7", 1⟩,
   ⟨.Semicolon, ";", 1⟩, ⟨.Eof, "", 1⟩]

/-- Witness for C7 on the fragment for lparen var i = 0 ; i < 3 ;
i = i + 1 rparen print 7 ; with all three clauses present. -/
theorem claim_C7_witness :
    Parser.forStatement 30 ⟨c7Tokens, 0⟩ =
      .ok (forDesugarSpec
        (some (.Var ⟨.Identifier "i", "i", 1⟩ (some (.Literal (.Number (.fin 0))))))
        (some (.Binary (.Variable ⟨.Identifier "i", "i", 1⟩) ⟨.Less, "<", 1⟩
          (.Literal (.Number (.fin 3)))))
        (some (.Assign ⟨.Identifier "i", "i", 1⟩
          (.Binary (.Variable ⟨.Identifier "i", "i", 1⟩) ⟨.Plus, "+", 1⟩
            (.Literal (.Number (.fin 1))))))
        (.Print (.Literal (.Number (.fin 7)))), ⟨c7Tokens, 19⟩) :=
  claim_C7 29 ⟨c7Tokens, 0⟩ ⟨c7Tokens, 1⟩ ⟨c7Tokens, 6⟩ ⟨c7Tokens, 10⟩
    ⟨c7Tokens, 16⟩ ⟨c7Tokens, 19⟩ ⟨.LeftParen, "(", 1⟩
    (some (.Var ⟨.Identifier "i", "i", 1⟩ (some (.Literal (.Number (.fin 0))))))
    (some (.Binary (.Variable ⟨.Identifier "i", "i", 1⟩) ⟨.Less, "<", 1⟩
      (.Literal (.Number (.fin 3)))))
    (some (.Assign ⟨.Identifier "i", "i", 1⟩
      (.Binary (.Variable ⟨.Identifier "i", "i", 1⟩) ⟨.Plus, "+", 1⟩
        (.Literal (.Number (.fin 1))))))
    (.Print (.Literal (.Number (.fin 7)))) rfl rfl rfl rfl rfl

/-- Token list of: fun g with 256 parameters all named a, an empty body,
then a following statement print 1 ; that well-formed surrounding code
never gets parsed. -/
def c9FunTokens : List Token :=
  [⟨.Fun, "fun", 1⟩, ⟨.Identifier "g", "g", 1⟩, ⟨.LeftParen, "(", 1⟩] ++
  (List.range 255).flatMap
    (fun _ => [⟨.Identifier "a", "a", 1⟩, ⟨.Comma, ",", 1⟩]) ++
  [⟨.Identifier "a", "a", 1⟩, ⟨.RightParen, ")", 1⟩, ⟨.LeftBrace, "\x7b", 1⟩,
   ⟨.RightBrace, "\x7d", 1⟩, ⟨.Print, "print", 1⟩, ⟨.Number (.fin 1), "1", 1⟩,
   ⟨.Semicolon, ";", 1⟩, ⟨.Eof, "", 1⟩]

set_option maxRecDepth 1000000 in
set_option maxHeartbeats 2000000 in
/-- Counterexample to claim C9 as stated: exceeding the parameter limit
produces the documented message, but the error is returned through the
parse (Parser::parse yields Err and no statement list), so the well-formed
surrounding statement print 1 ; at the end of the token list is never
parsed: the parse of surrounding code does halt. -/
theorem claim_C9_counterexample :
    Parser.parse 600 c9FunTokens =
      .err "Can't have more than 255 parameters. at 'a'" := rfl

/-- Claim C9 as amended: with 255 parameters (or arguments) already
collected, the next loop iteration produces the documented error at the
peeked token without consuming it; and an error from any declaration
propagates through the parse loop, aborting the entire parse, so the
surrounding code is not parsed. -/
theorem claim_C9_amended (f : Nat) (st : ParserState) (t : Token)
    (params : List Token) (args : List Expr) :
    (params.length ≥ 255 → Parser.peekP st = .ok t →
      Parser.paramsLoop (f + 1) params st =
        .err (Parser.errorMsg t "Can't have more than 255 parameters."))
    ∧ (args.length ≥ 255 → Parser.peekP st = .ok t →
      Parser.argsLoop (f + 1) args st =
        .err (Parser.errorMsg t "Can't have more than 255 arguments."))
    ∧ (∀ (acc : List Stmt) (e : String), Parser.isAtEndP st = .ok false →
      Parser.declaration f st = .err e →
      Parser.parseLoop (f + 1) acc st = .err e) := by
  refine ⟨?_, ?_, ?_⟩
  · intro hl hp
    simp [Parser.paramsLoop, hl, hp, Res.bind]
  · intro hl hp
    simp [Parser.argsLoop, hl, hp, Res.bind]
  · intro acc e hae hd
    simp [Parser.parseLoop, hae, hd, Res.bind]

/-- Witness for the amended C9: with 255 parameters collected and an
identifier under the cursor the loop errs with the documented message. -/
theorem claim_C9_amended_witness :
    Parser.paramsLoop 1 (List.replicate 255 ⟨.Identifier "a", "a", 1⟩)
      ⟨[⟨.Identifier "a", "a", 1⟩, ⟨.Eof, "", 1⟩], 0⟩ =
      .err (Parser.errorMsg ⟨.Identifier "a", "a", 1⟩
        "Can't have more than 255 parameters.") :=
  (claim_C9_amended 0 ⟨[⟨.Identifier "a", "a", 1⟩, ⟨.Eof, "", 1⟩], 0⟩
    ⟨.Identifier "a", "a", 1⟩ (List.replicate 255 ⟨.Identifier "a", "a", 1⟩)
    []).1 (List.length_replicate ..).ge rfl

/-- Claim C10: in the call-boundary body loop, a statement that is not a
syntactic top-level return and whose evaluation produces a runtime error
Err makes the loop panic with that message (the unwrap), instead of
returning the error to the caller; likewise an error while evaluating the
expression of a top-level return statement panics. -/
theorem claim_C10 (f : Nat) (s : Stmt) (rest : List Stmt) (env : Nat)
    (st : EvalSt) (e : String) :
    (isReturnStmt s = false → evalStmt f s env st = .err e →
      execBody (f + 1) (s :: rest) env st = .panic e)
    ∧ (∀ (tok : Token) (vex : Expr), evalExpr f vex env st = .err e →
      execBody (f + 1) (.Return tok (some vex) :: rest) env st = .panic e) := by
  constructor
  · intro hr he
    cases s with
    | Return k v => simp [isReturnStmt] at hr
    | Block ss => simp [execBody, he]
    | Expression e2 => simp [execBody, he]
    | Function n p b => simp [execBody, he]
    | If c tb eb => simp [execBody, he]
    | Print e2 => simp [execBody, he]
    | Var n i => simp [execBody, he]
    | While c b => simp [execBody, he]
  · intro tok vex he
    simp [execBody, he]

/-- Witness for C10: a body whose single statement reads an unbound
variable makes the call boundary panic with the undefined-variable message
rather than return it as an Err. -/
theorem claim_C10_witness :
    execBody 4 [.Expression (.Variable ⟨.Identifier "x", "x", 1⟩)] 0
      ⟨[⟨none, []⟩], [], .fin 0⟩ = .panic "Undefined variable 'x'." :=
  (claim_C10 3 (.Expression (.Variable ⟨.Identifier "x", "x", 1⟩)) [] 0
    ⟨[⟨none, []⟩], [], .fin 0⟩ "Undefined variable 'x'.").1 rfl rfl

/-! Lemmas toward C8: no rule of scan_token ever emits an Eof token, so the
single Eof comes from the push in scan_tokens. -/

theorem advanceS_tokens (st : ScanState) (c : Char) (st1 : ScanState)
    (h : advanceS st = .ok (c, st1)) : st1.tokens = st.tokens := by
  unfold advanceS at h
  cases hg : st.source.get? st.current with
  | some ch => rw [hg] at h; cases h; rfl
  | none => rw [hg] at h; simp at h

theorem matchCharS_tokens (c : Char) (st : ScanState) :
    ((matchCharS c st).2).tokens = st.tokens := by
  unfold matchCharS
  (repeat' split) <;> rfl

theorem countEof_addToken (tt : TokenType) (st : ScanState)
    (h : tt.isEof = false) :
    countEof (addToken tt st).tokens = countEof st.tokens := by
  simp [addToken, countEof, List.countP_append, h]

theorem keywordType_isEof (s : String) : (keywordType s).isEof = false := by
  unfold keywordType
  cases hf : keywordTable.find? (fun p => p.1 == s) with
  | none => rfl
  | some p =>
    have hmem := List.mem_of_find?_eq_some hf
    simp only [keywordTable, List.mem_cons, List.not_mem_nil, or_false] at hmem
    rcases hmem with h|h|h|h|h|h|h|h|h|h|h|h|h|h|h|h <;> subst h <;> rfl

theorem stringAdvanceLoop_tokens (f : Nat) (st st1 : ScanState)
    (h : stringAdvanceLoop f st = .ok st1) : st1.tokens = st.tokens := by
  induction f generalizing st with
  | zero => simp [stringAdvanceLoop] at h
  | succ f ih =>
    unfold stringAdvanceLoop at h
    split at h
    · cases ha : advanceS (if peekS st = '\n' then { st with line := st.line + 1 } else st) with
      | ok p =>
        obtain ⟨c, st2⟩ := p
        rw [ha] at h
        simp only [Res.bind] at h
        have h2 := ih st2 h
        have h3 := advanceS_tokens _ c st2 ha
        rw [h2, h3]
        split <;> rfl
      | err e => rw [ha] at h; simp [Res.bind] at h
      | panic e => rw [ha] at h; simp [Res.bind] at h
      | timeout => rw [ha] at h; simp [Res.bind] at h
    · cases h; rfl

theorem digitsLoop_tokens (f : Nat) (st st1 : ScanState)
    (h : digitsLoop f st = .ok st1) : st1.tokens = st.tokens := by
  induction f generalizing st with
  | zero => simp [digitsLoop] at h
  | succ f ih =>
    unfold digitsLoop at h
    split at h
    · cases ha : advanceS st with
      | ok p =>
        obtain ⟨c, st2⟩ := p
        rw [ha] at h
        simp only [Res.bind] at h
        rw [ih st2 h, advanceS_tokens st c st2 ha]
      | err e => rw [ha] at h; simp [Res.bind] at h
      | panic e => rw [ha] at h; simp [Res.bind] at h
      | timeout => rw [ha] at h; simp [Res.bind] at h
    · cases h; rfl

theorem alnumLoop_tokens (f : Nat) (st st1 : ScanState)
    (h : alnumLoop f st = .ok st1) : st1.tokens = st.tokens := by
  induction f generalizing st with
  | zero => simp [alnumLoop] at h
  | succ f ih =>
    unfold alnumLoop at h
    split at h
    · cases ha : advanceS st with
      | ok p =>
        obtain ⟨c, st2⟩ := p
        rw [ha] at h
        simp only [Res.bind] at h
        rw [ih st2 h, advanceS_tokens st c st2 ha]
      | err e => rw [ha] at h; simp [Res.bind] at h
      | panic e => rw [ha] at h; simp [Res.bind] at h
      | timeout => rw [ha] at h; simp [Res.bind] at h
    · cases h; rfl

theorem commentLoop_tokens (f : Nat) (st st1 : ScanState)
    (h : commentLoop f st = .ok st1) : st1.tokens = st.tokens := by
  induction f generalizing st with
  | zero => simp [commentLoop] at h
  | succ f ih =>
    unfold commentLoop at h
    split at h
    · cases ha : advanceS st with
      | ok p =>
        obtain ⟨c, st2⟩ := p
        rw [ha] at h
        simp only [Res.bind] at h
        rw [ih st2 h, advanceS_tokens st c st2 ha]
      | err e => rw [ha] at h; simp [Res.bind] at h
      | panic e => rw [ha] at h; simp [Res.bind] at h
      | timeout => rw [ha] at h; simp [Res.bind] at h
    · cases h; rfl

theorem stringTok_countEof (f : Nat) (st st1 : ScanState)
    (h : stringTok f st = .ok st1) :
    countEof st1.tokens = countEof st.tokens := by
  unfold stringTok at h
  cases hl : stringAdvanceLoop f st with
  | ok st2 =>
    rw [hl] at h
    simp only [Res.bind] at h
    split at h
    · simp at h
    · cases ha : advanceS st2 with
      | ok p =>
        obtain ⟨c, st3⟩ := p
        rw [ha] at h
        simp only [Res.bind] at h
        cases h
        rw [countEof_addToken
            (TokenType.String (sliceStr st3 (st3.start + 1) (st3.current - 1)))
            st3 rfl,
          advanceS_tokens st2 c st3 ha, stringAdvanceLoop_tokens f st st2 hl]
      | err e => rw [ha] at h; simp [Res.bind] at h
      | panic e => rw [ha] at h; simp [Res.bind] at h
      | timeout => rw [ha] at h; simp [Res.bind] at h
  | err e => rw [hl] at h; simp [Res.bind] at h
  | panic e => rw [hl] at h; simp [Res.bind] at h
  | timeout => rw [hl] at h; simp [Res.bind] at h

theorem numberFinish_countEof (st st1 : ScanState)
    (h : numberFinish st = .ok st1) :
    countEof st1.tokens = countEof st.tokens := by
  unfold numberFinish at h
  split at h
  · cases h
    exact countEof_addToken _ _ rfl
  · simp at h

theorem numberTok_countEof (f : Nat) (st st1 : ScanState)
    (h : numberTok f st = .ok st1) :
    countEof st1.tokens = countEof st.tokens := by
  unfold numberTok at h
  cases hl : digitsLoop f st with
  | ok st2 =>
    rw [hl] at h
    simp only [Res.bind] at h
    split at h
    · cases ha : advanceS st2 with
      | ok p =>
        obtain ⟨c, st3⟩ := p
        rw [ha] at h
        simp only [Res.bind] at h
        cases hl2 : digitsLoop f st3 with
        | ok st4 =>
          rw [hl2] at h
          simp only [Res.bind] at h
          rw [numberFinish_countEof st4 st1 h, digitsLoop_tokens f st3 st4 hl2,
            advanceS_tokens st2 c st3 ha, digitsLoop_tokens f st st2 hl]
        | err e => rw [hl2] at h; simp [Res.bind] at h
        | panic e => rw [hl2] at h; simp [Res.bind] at h
        | timeout => rw [hl2] at h; simp [Res.bind] at h
      | err e => rw [ha] at h; simp [Res.bind] at h
      | panic e => rw [ha] at h; simp [Res.bind] at h
      | timeout => rw [ha] at h; simp [Res.bind] at h
    · rw [numberFinish_countEof st2 st1 h, digitsLoop_tokens f st st2 hl]
  | err e => rw [hl] at h; simp [Res.bind] at h
  | panic e => rw [hl] at h; simp [Res.bind] at h
  | timeout => rw [hl] at h; simp [Res.bind] at h

theorem identifierTok_countEof (f : Nat) (st st1 : ScanState)
    (h : identifierTok f st = .ok st1) :
    countEof st1.tokens = countEof st.tokens := by
  unfold identifierTok at h
  cases hl : alnumLoop f st with
  | ok st2 =>
    rw [hl] at h
    simp only [Res.bind] at h
    cases h
    rw [countEof_addToken _ _ (keywordType_isEof _), alnumLoop_tokens f st st2 hl]
  | err e => rw [hl] at h; simp [Res.bind] at h
  | panic e => rw [hl] at h; simp [Res.bind] at h
  | timeout => rw [hl] at h; simp [Res.bind] at h

theorem scanToken_countEof (f : Nat) (st st1 : ScanState)
    (h : scanToken f st = .ok st1) : countEof st1.tokens = countEof st.tokens := by
  unfold scanToken at h
  cases ha : advanceS st with
  | ok p =>
    obtain ⟨c, sta⟩ := p
    have hat : sta.tokens = st.tokens := advanceS_tokens st c sta ha
    rw [ha] at h
    simp only [Res.bind] at h
    split at h
    all_goals first
    | (cases h; simp [countEof_addToken, TokenType.isEof, hat])
    | (cases h
       cases hm : (matchCharS '=' sta).1 <;>
         simp [hm, countEof_addToken, TokenType.isEof, matchCharS_tokens, hat])
    | (rw [stringTok_countEof f sta st1 h, hat])
    | (split at h
       · have h2 := commentLoop_tokens f _ st1 h
         rw [h2, matchCharS_tokens, hat]
       · cases h
         simp [countEof_addToken, TokenType.isEof, matchCharS_tokens, hat])
    | (split at h
       · rw [numberTok_countEof f sta st1 h, hat]
       · split at h
         · rw [identifierTok_countEof f sta st1 h, hat]
         · simp at h)
  | err e => rw [ha] at h; simp [Res.bind] at h
  | panic e => rw [ha] at h; simp [Res.bind] at h
  | timeout => rw [ha] at h; simp [Res.bind] at h

theorem scanLoop_countEof (f : Nat) (st st1 : ScanState)
    (h : scanLoop f st = .ok st1) : countEof st1.tokens = countEof st.tokens := by
  induction f generalizing st with
  | zero => simp [scanLoop] at h
  | succ f ih =>
    unfold scanLoop at h
    split at h
    · cases h; rfl
    · cases hs : scanToken f { st with start := st.current } with
      | ok st2 =>
        rw [hs] at h
        simp only [Res.bind] at h
        rw [ih st2 h, scanToken_countEof f { st with start := st.current } st2 hs]
      | err e => rw [hs] at h; simp [Res.bind] at h
      | panic e => rw [hs] at h; simp [Res.bind] at h
      | timeout => rw [hs] at h; simp [Res.bind] at h

/-- Claim C8: whenever the scan loop completes normally, scan_tokens
returns exactly the loop's tokens followed by one Eof token carrying the
final line counter; the loop itself never emits an Eof, so the output ends
with exactly one Eof, whose line is the last observed line counter. -/
theorem claim_C8 (source : List Char) (st1 : ScanState)
    (h : scanFinal source = .ok st1) :
    scanTokens source = .ok (st1.tokens ++ [⟨.Eof, "", st1.line⟩])
    ∧ countEof st1.tokens = 0
    ∧ countEof (st1.tokens ++ [⟨.Eof, "", st1.line⟩]) = 1 := by
  have h0 : countEof st1.tokens = 0 := by
    have h1 := scanLoop_countEof (source.length + 2) ⟨source, [], 0, 0, 1⟩ st1 h
    simpa [countEof] using h1
  refine ⟨?_, h0, ?_⟩
  · unfold scanTokens
    rw [h]
  · have h2 : countEof [(⟨.Eof, "", st1.line⟩ : Token)] = 1 := rfl
    calc countEof (st1.tokens ++ [⟨.Eof, "", st1.line⟩])
        = countEof st1.tokens + countEof [⟨.Eof, "", st1.line⟩] := by
          simp [countEof, List.countP_append]
      _ = 1 := by rw [h0, h2]

/-- Witness for C8 on the two-character source of a newline then a
semicolon: the scan ends on line 2 and the Eof token carries line 2. -/
theorem claim_C8_witness :
    scanTokens ['\n', ';'] =
      .ok ([⟨.Semicolon, ";", 2⟩] ++ [⟨.Eof, "", 2⟩])
    ∧ countEof [(⟨.Semicolon, ";", 2⟩ : Token)] = 0
    ∧ countEof ([⟨.Semicolon, ";", 2⟩] ++ [⟨.Eof, "", 2⟩]) = 1 :=
  claim_C8 ['\n', ';'] ⟨['\n', ';'], [⟨.Semicolon, ";", 2⟩], 1, 2, 2⟩ rfl

end Rubrs
